import Mathlib

/-!
Verification development for the wavetable synthesizer engine bundled in this
repository (the rendererWorker bundle: SampleTable, AmplitudeEnvelope, LFO,
WavetableOscillator, channel state and SynthProcessorCore, SynthEventScheduler,
ReverbProcessor and the offline renderAudio driver).

The embedding is a shallow one over the rationals. Audio amplitudes, playback
positions and envelope levels are ℚ; frame counters, MIDI data bytes and queue
indices are ℕ. JavaScript objects indexed by integer keys are modelled as
association lists kept sorted by ascending key (matching for-in enumeration
order of integer-like keys). The transcendental Math functions the engine calls
(Math.pow with bases 2 and 10, Math.log10, Math.sin, Math.cos and Math.PI) are
collected in a MathOps parameter; every theorem below holds for every choice of
those primitives.
-/

namespace Wavelet

/-- Stand-ins for the JavaScript Math functions used by the engine. The engine
computes with IEEE floats; this embedding is over ℚ and is parametric in the
transcendental primitives, and no theorem below depends on their values. -/
structure MathOps where
  pow2 : ℚ → ℚ
  pow10 : ℚ → ℚ
  log10 : ℚ → ℚ
  sin : ℚ → ℚ
  cos : ℚ → ℚ
  pi : ℚ

/-- A concrete MathOps instance used only to evaluate witnesses; the engine
theorems are quantified over every MathOps. -/
def defaultMathOps : MathOps :=
  { pow2 := fun _ => 1, pow10 := fun _ => 1, log10 := fun _ => 0,
    sin := fun _ => 0, cos := fun _ => 1, pi := 355 / 113 }

/-- Lookup in the JavaScript-object model (association list, numeric keys). -/
def alookup : List (ℕ × α) → ℕ → Option α
  | [], _ => none
  | (k0, v0) :: rest, k => if k = k0 then some v0 else alookup rest k

/-- Property write in the JavaScript-object model: replace the value when the
key exists, otherwise insert keeping keys in ascending order (for-in iterates
integer-like keys in ascending numeric order regardless of insertion time). -/
def aset : List (ℕ × α) → ℕ → α → List (ℕ × α)
  | [], k, v => [(k, v)]
  | (k0, v0) :: rest, k, v =>
    if k < k0 then (k, v) :: (k0, v0) :: rest
    else if k = k0 then (k, v) :: rest
    else (k0, v0) :: aset rest k v

/-- Property deletion in the JavaScript-object model. -/
def adelete (m : List (ℕ × α)) (k : ℕ) : List (ℕ × α) :=
  m.filter (fun kv => kv.1 ≠ k)

/-! ## Sample data model -/

/-- Loop descriptor type of a sample (the source strings are no_loop,
loop_continuous and loop_sustain). -/
inductive LoopKind
  | noLoop
  | loopContinuous
  | loopSustain
deriving DecidableEq, Repr

/-- Per-sample envelope timing parameters. -/
structure AmplitudeEnvelopeParameter where
  attackTime : ℚ
  holdTime : ℚ
  decayTime : ℚ
  sustainLevel : ℚ
  releaseTime : ℚ
deriving DecidableEq, Repr

/-- Synthesis parameters of one sample, as handed to addSampleParameter. The
loop descriptor fields loop.type, loop.start and loop.end are flattened into
loopKind, loopStart and loopEnd. -/
structure SampleParameter where
  sampleID : ℕ
  pitch : ℚ
  scaleTuning : ℚ
  sampleStart : ℚ
  sampleEnd : ℚ
  loopKind : LoopKind
  loopStart : ℚ
  loopEnd : ℚ
  samplePan : ℚ
  sampleVolume : ℚ
  sampleSampleRate : ℚ
  exclusiveClass : Option ℕ
  amplitudeEnvelope : AmplitudeEnvelopeParameter
deriving DecidableEq, Repr

/-- A registered parameter: the spread of a SampleParameter with the velocity
range attached by addSampleParameter. -/
structure RegisteredParameter extends SampleParameter where
  velRange : ℕ × ℕ
deriving DecidableEq, Repr

/-- A getSamples result entry: the spread of a registered parameter with its
decoded sample buffer. -/
structure SampleWithBuffer extends RegisteredParameter where
  buffer : List ℚ
deriving DecidableEq, Repr

/-- The bank and ranges under which addSampleParameter registers a parameter. -/
structure ParameterRange where
  bank : ℕ
  instrument : ℕ
  keyRange : ℕ × ℕ
  velRange : ℕ × ℕ
deriving DecidableEq, Repr

/-- SampleTable: decoded buffers by sample id, and registered parameters as the
nested map bank to instrument to key to parameter list. -/
structure SampleTable where
  samples : List (ℕ × List ℚ) := []
  sampleParameters : List (ℕ × List (ℕ × List (ℕ × List RegisteredParameter))) := []
deriving Repr

/-- SampleTable.addSample: store a decoded buffer under its id (overwrite on a
duplicate id). -/
def SampleTable.addSample (t : SampleTable) (data : List ℚ) (sampleID : ℕ) : SampleTable :=
  { t with samples := aset t.samples sampleID data }

/-- The loop body of addSampleParameter for one key i: ensure the nested bank
and instrument objects exist and append the parameter (with its velocity
range) to the key's list. -/
def addSampleParameterKey (parameter : SampleParameter) (velRange : ℕ × ℕ)
    (bank instrument : ℕ) (t : SampleTable) (i : ℕ) : SampleTable :=
  let bankMap := (alookup t.sampleParameters bank).getD []
  let instMap := (alookup bankMap instrument).getD []
  let keyList := (alookup instMap i).getD []
  { t with
    sampleParameters :=
      aset t.sampleParameters bank
        (aset bankMap instrument
          (aset instMap i
            (keyList ++ [{ toSampleParameter := parameter, velRange := velRange }]))) }

/-- SampleTable.addSampleParameter: run the loop body for every key from
keyRange[0] to keyRange[1] inclusive. -/
def SampleTable.addSampleParameter (t : SampleTable) (parameter : SampleParameter)
    (range : ParameterRange) : SampleTable :=
  (List.range' range.keyRange.1 (range.keyRange.2 + 1 - range.keyRange.1)).foldl
    (addSampleParameterKey parameter range.velRange range.bank range.instrument) t

/-- The instrument map chosen by getSamples: the entry at (bank, instrument),
falling back to (0, instrument) when that is unresolvable. -/
def SampleTable.instrumentParametersAt (t : SampleTable) (bank instrument : ℕ) :
    Option (List (ℕ × List RegisteredParameter)) :=
  ((alookup t.sampleParameters bank).bind (fun m => alookup m instrument)).orElse
    (fun _ => (alookup t.sampleParameters 0).bind (fun m => alookup m instrument))

/-- SampleTable.getSamples: filter the parameters registered at the resolved
(bank, instrument, pitch) entry by velocity range, then pair each with its
buffer; a parameter whose sample id has no stored buffer is skipped (the source
logs a warning and continues). -/
def SampleTable.getSamples (t : SampleTable) (bank instrument pitch velocity : ℕ) :
    List SampleWithBuffer :=
  let instrumentParameters := t.instrumentParametersAt bank instrument
  let parameters := ((instrumentParameters.bind (fun m => alookup m pitch)).getD []).filter
    (fun s => decide (velocity ≥ s.velRange.1) && decide (velocity ≤ s.velRange.2))
  parameters.filterMap (fun parameter =>
    (alookup t.samples parameter.sampleID).map
      (fun buffer => { toRegisteredParameter := parameter, buffer := buffer }))

/-- Observer: the list of parameters registered at (bank, instrument, key),
read directly off the nested map (empty when any level is missing). -/
def SampleTable.parametersAt (t : SampleTable) (bank instrument key : ℕ) :
    List RegisteredParameter :=
  ((((alookup t.sampleParameters bank).bind (fun m => alookup m instrument)).bind
    (fun m => alookup m key))).getD []

/-! ## Amplitude envelope -/

/-- Envelope phases. -/
inductive EnvelopePhase
  | attack
  | hold
  | decay
  | sustain
  | release
  | forceStop
  | stopped
deriving DecidableEq, Repr

/-- Duration of the forced-stop ramp (0.1 seconds). -/
def forceStopReleaseTime : ℚ := 0.1

/-- AmplitudeEnvelope instance state. -/
structure AmplitudeEnvelope where
  parameter : AmplitudeEnvelopeParameter
  phase : EnvelopePhase := .stopped
  isNoteOff : Bool := false
  phaseTime : ℚ := 0
  decayLevel : ℚ := 0
  lastAmplitude : ℚ := 0
  sampleRate : ℚ
deriving DecidableEq, Repr

/-- The phase property setter: writing a different phase resets phaseTime. -/
def AmplitudeEnvelope.setPhase (e : AmplitudeEnvelope) (p : EnvelopePhase) : AmplitudeEnvelope :=
  if e.phase = p then e else { e with phase := p, phaseTime := 0 }

/-- AmplitudeEnvelope.noteOn. -/
def AmplitudeEnvelope.noteOn (e : AmplitudeEnvelope) : AmplitudeEnvelope :=
  let e := e.setPhase .attack
  { e with isNoteOff := false, phaseTime := 0, decayLevel := e.parameter.sustainLevel }

/-- AmplitudeEnvelope.noteOff. -/
def AmplitudeEnvelope.noteOff (e : AmplitudeEnvelope) : AmplitudeEnvelope :=
  { e with isNoteOff := true }

/-- AmplitudeEnvelope.forceStop: rapidly decrease the volume, ignoring the
release time parameter. -/
def AmplitudeEnvelope.forceStop (e : AmplitudeEnvelope) : AmplitudeEnvelope :=
  e.setPhase .forceStop

/-- linearToDecibel. -/
def linearToDecibel (M : MathOps) (value : ℚ) : ℚ :=
  20 * M.log10 value

/-- decibelToLinear. -/
def decibelToLinear (M : MathOps) (value : ℚ) : ℚ :=
  M.pow10 (value / 20)

/-- Exponential decay: attenuate fromLevel by attenuationDecibel over duration,
evaluated at time. -/
def logAttenuation (M : MathOps) (fromLevel attenuationDecibel duration time : ℚ) : ℚ :=
  fromLevel * decibelToLinear M (attenuationDecibel / duration * time)

/-- AmplitudeEnvelope.calculateAmplitude: one step of the envelope state
machine, returning the amplitude and the updated state. -/
def AmplitudeEnvelope.calculateAmplitude (M : MathOps) (e0 : AmplitudeEnvelope)
    (bufferSize : ℕ) : ℚ × AmplitudeEnvelope :=
  let e := if e0.isNoteOff ∧ (e0.phase = .decay ∨ e0.phase = .sustain) then
      { e0.setPhase .release with decayLevel := e0.lastAmplitude }
    else e0
  match e.phase with
  | .attack =>
      let amplificationPerFrame := 1 / (e.parameter.attackTime * e.sampleRate) * bufferSize
      let value := e.lastAmplitude + amplificationPerFrame
      if value ≥ 1 then (1, e.setPhase .hold) else (value, e)
  | .hold =>
      if e.phaseTime ≥ e.parameter.holdTime then (e.lastAmplitude, e.setPhase .decay)
      else (e.lastAmplitude, e)
  | .decay =>
      let attenuationDecibel := linearToDecibel M (e.parameter.sustainLevel / 1)
      let value := logAttenuation M 1 attenuationDecibel e.parameter.decayTime e.phaseTime
      if e.phaseTime > e.parameter.decayTime then
        if e.parameter.sustainLevel ≤ 0 then (0, e.setPhase .stopped)
        else (e.parameter.sustainLevel, e.setPhase .sustain)
      else (value, e)
  | .sustain => (e.parameter.sustainLevel, e)
  | .release =>
      let value := logAttenuation M e.decayLevel (-100) e.parameter.releaseTime e.phaseTime
      if e.phaseTime > e.parameter.releaseTime ∨ value ≤ 0 then (0, e.setPhase .stopped)
      else (value, e)
  | .forceStop =>
      let attenuationPerFrame := 1 / (forceStopReleaseTime * e.sampleRate) * bufferSize
      let value := e.lastAmplitude - attenuationPerFrame
      if value ≤ 0 then (0, e.setPhase .stopped) else (value, e)
  | .stopped => (0, e)

/-- AmplitudeEnvelope.getAmplitude: calculateAmplitude, then store the value as
lastAmplitude and advance phaseTime by bufferSize divided by the sample rate.
In the source that divisor is the ambient audio-context sampleRate global; it
is modelled as the envelope's own sampleRate field, with which the engine
constructs every envelope. -/
def AmplitudeEnvelope.getAmplitude (M : MathOps) (e : AmplitudeEnvelope)
    (bufferSize : ℕ) : ℚ × AmplitudeEnvelope :=
  let value := (e.calculateAmplitude M bufferSize).1
  let e1 := (e.calculateAmplitude M bufferSize).2
  (value, { e1 with lastAmplitude := value, phaseTime := e1.phaseTime + bufferSize / e1.sampleRate })

/-- AmplitudeEnvelope.isPlaying: false only in the stopped phase. -/
def AmplitudeEnvelope.isPlaying (e : AmplitudeEnvelope) : Bool :=
  decide (e.phase ≠ .stopped)

/-- Observer: the envelope state after k successive getAmplitude calls with a
fixed buffer size. -/
def envelopeAfter (M : MathOps) (bufferSize : ℕ) (e : AmplitudeEnvelope) : ℕ → AmplitudeEnvelope
  | 0 => e
  | k + 1 => ((envelopeAfter M bufferSize e k).getAmplitude M bufferSize).2

/-- Observer: the amplitude returned by the (k+1)-th successive getAmplitude
call. -/
def amplitudeAt (M : MathOps) (bufferSize : ℕ) (e : AmplitudeEnvelope) (k : ℕ) : ℚ :=
  ((envelopeAfter M bufferSize e k).getAmplitude M bufferSize).1

/-! ## Low-frequency oscillator -/

/-- LFO instance state. -/
structure LFO where
  frequency : ℚ := 5
  phase : ℚ := 0
  sampleRate : ℚ
deriving DecidableEq, Repr

/-- LFO.getValue: return sin of the current phase, then advance the phase. -/
def LFO.getValue (M : MathOps) (l : LFO) (bufferSize : ℕ) : ℚ × LFO :=
  (M.sin l.phase,
   { l with phase := l.phase + M.pi * 2 * l.frequency / l.sampleRate * bufferSize })

/-! ## Wavetable oscillator (voice) -/

/-- WavetableOscillator instance state. The underscore-prefixed source fields
_isPlaying and _isNoteOff are named isPlayingFlag and isNoteOffFlag. -/
structure WavetableOscillator where
  sample : SampleWithBuffer
  sampleIndex : ℚ := 0
  isPlayingFlag : Bool := false
  isNoteOffFlag : Bool := false
  baseSpeed : ℚ := 1
  envelope : AmplitudeEnvelope
  pitchLFO : LFO
  sampleRate : ℚ
  speed : ℚ := 1
  velocity : ℚ := 1
  volume : ℚ := 1
  modulation : ℚ := 0
  modulationDepthRange : ℚ := 50
  pan : ℚ := 0
  isHold : Bool := false
deriving DecidableEq, Repr

/-- The WavetableOscillator constructor. -/
def WavetableOscillator.create (sample : SampleWithBuffer) (sampleRate : ℚ) :
    WavetableOscillator :=
  { sample := sample, sampleRate := sampleRate,
    envelope := { parameter := sample.amplitudeEnvelope, sampleRate := sampleRate },
    pitchLFO := { sampleRate := sampleRate } }

/-- WavetableOscillator.noteOn. -/
def WavetableOscillator.noteOn (M : MathOps) (v : WavetableOscillator) (pitch : ℕ)
    (velocity : ℚ) : WavetableOscillator :=
  { v with
    velocity := velocity,
    isPlayingFlag := true,
    sampleIndex := v.sample.sampleStart,
    baseSpeed := M.pow2 (((pitch : ℚ) - v.sample.pitch) / 12 * v.sample.scaleTuning),
    pitchLFO := { v.pitchLFO with frequency := 5 },
    envelope := v.envelope.noteOn }

/-- WavetableOscillator.noteOff. -/
def WavetableOscillator.noteOff (v : WavetableOscillator) : WavetableOscillator :=
  { v with envelope := v.envelope.noteOff, isNoteOffFlag := true }

/-- WavetableOscillator.forceStop. -/
def WavetableOscillator.forceStop (v : WavetableOscillator) : WavetableOscillator :=
  { v with envelope := v.envelope.forceStop }

/-- WavetableOscillator.isPlaying: both the raw playing flag and the envelope
must be active. -/
def WavetableOscillator.isPlaying (v : WavetableOscillator) : Bool :=
  v.isPlayingFlag && v.envelope.isPlaying

/-- One iteration of the per-frame loop body of WavetableOscillator.process:
returns the interpolated sample level accumulated this frame, the updated
fractional read pointer, and the updated playing flag (false exactly when the
new pointer reached sampleEnd, which breaks the loop). Out-of-range or
fractional buffer subscripts, which read undefined in JavaScript, read 0 here;
no theorem below depends on buffer contents. -/
def oscFrameStep (s : SampleWithBuffer) (isNoteOffFlag : Bool)
    (modulatedSpeed sampleIndex : ℚ) : ℚ × ℚ × Bool :=
  let index : ℤ := ⌊sampleIndex⌋
  let advancedIndex := sampleIndex + modulatedSpeed
  let loopIndex : Option ℚ :=
    if (s.loopKind = .loopContinuous ∨ (s.loopKind = .loopSustain ∧ ¬ isNoteOffFlag = true))
        ∧ advancedIndex ≥ s.loopEnd then
      some (s.loopStart + (advancedIndex - (⌊advancedIndex⌋ : ℚ)))
    else none
  let nextIndex : ℚ := match loopIndex with
    | some li => ((⌊li⌋ : ℤ) : ℚ)
    | none => min ((index : ℚ) + 1) (s.sampleEnd - 1)
  let current := s.buffer.getD index.toNat 0
  let next := s.buffer.getD (⌊nextIndex⌋).toNat 0
  let level := current + (next - current) * (sampleIndex - (index : ℚ))
  let newIndex := loopIndex.getD advancedIndex
  (level, newIndex, decide (newIndex < s.sampleEnd))

/-- The per-frame loop of WavetableOscillator.process over the output buffers,
accumulating level times gain into both channels and stopping early the moment
the read pointer reaches sampleEnd (the remaining frames are left untouched).
Returns the final read pointer, the final playing flag and the updated
buffers. -/
def oscProcessFrames (s : SampleWithBuffer) (isNoteOffFlag : Bool)
    (modulatedSpeed leftGain rightGain : ℚ) :
    ℚ → List ℚ → List ℚ → ℚ × Bool × List ℚ × List ℚ
  | sampleIndex, [], outR => (sampleIndex, true, [], outR)
  | sampleIndex, l :: outL, outR =>
      let r := outR.headD 0
      let rest := outR.tail
      let step := oscFrameStep s isNoteOffFlag modulatedSpeed sampleIndex
      let lw := l + step.1 * leftGain
      let rw := r + step.1 * rightGain
      if step.2.2 then
        let res := oscProcessFrames s isNoteOffFlag modulatedSpeed leftGain rightGain
          step.2.1 outL rest
        (res.1, res.2.1, lw :: res.2.2.1, rw :: res.2.2.2)
      else (step.2.1, false, lw :: outL, rw :: rest)

/-- WavetableOscillator.process: render one buffer worth of audio into the two
accumulation buffers (addition, not overwrite), returning the updated voice and
buffers. Does nothing when the raw playing flag is already false. -/
def WavetableOscillator.process (M : MathOps) (v : WavetableOscillator)
    (outL outR : List ℚ) : WavetableOscillator × List ℚ × List ℚ :=
  if v.isPlayingFlag then
    let speed := v.baseSpeed * v.speed * v.sample.sampleSampleRate / v.sampleRate
    let volume := (v.velocity * v.volume) ^ 2 * v.sample.sampleVolume
    let panTheta := (min 1 (max (-1) (v.pan + v.sample.samplePan)) + 1) * M.pi / 4
    let leftPanVolume := M.cos panTheta
    let rightPanVolume := M.sin panTheta
    let gainRes := v.envelope.getAmplitude M outL.length
    let leftGain := gainRes.1 * volume * leftPanVolume
    let rightGain := gainRes.1 * volume * rightPanVolume
    let lfoRes := v.pitchLFO.getValue M outL.length
    let pitchModulation := lfoRes.1 * v.modulation * (v.modulationDepthRange / 1200)
    let modulatedSpeed := speed * (1 + pitchModulation)
    let res := oscProcessFrames v.sample v.isNoteOffFlag modulatedSpeed leftGain rightGain
      v.sampleIndex outL outR
    ({ v with
        envelope := gainRes.2,
        pitchLFO := lfoRes.2,
        sampleIndex := res.1,
        isPlayingFlag := res.2.1 }, res.2.2.1, res.2.2.2)
  else (v, outL, outR)

/-! ## Channel state -/

/-- Per-channel mixer state (initialChannelState gives the defaults). -/
structure ChannelState where
  volume : ℚ := 1
  bank : ℕ := 0
  instrument : ℕ := 0
  pitchBend : ℚ := 0
  pitchBendSensitivity : ℚ := 2
  oscillators : List (ℕ × List WavetableOscillator) := []
  expression : ℚ := 1
  pan : ℚ := 0
  modulation : ℚ := 0
  hold : Bool := false
deriving Repr

/-- initialChannelState. -/
def initialChannelState : ChannelState := {}

/-! ## Reverb processor -/

/-- ReverbProcessor instance state. -/
structure ReverbProcessor where
  sampleRate : ℚ
  delayLines : List (List ℚ)
  delayIndices : List ℕ
  delayTimes : List ℕ
  feedbacks : List ℚ
  gains : List ℚ
  wetLevel : ℚ := 0
  dryLevel : ℚ := 1
deriving DecidableEq, Repr

/-- The fixed delay times of the eight comb lines, in milliseconds. -/
def reverbDelayTimesMs : List ℕ := [19, 29, 41, 53, 67, 79, 97, 113]

/-- The ReverbProcessor constructor. -/
def ReverbProcessor.create (sampleRate : ℚ) : ReverbProcessor :=
  let delayTimes := reverbDelayTimesMs.map (fun ms => (⌊((ms : ℚ) * sampleRate) / 1000⌋).toNat)
  { sampleRate := sampleRate,
    delayTimes := delayTimes,
    delayLines := delayTimes.map (fun delayTime => List.replicate delayTime 0),
    delayIndices := List.replicate delayTimes.length 0,
    feedbacks := [0.7, 0.65, 0.6, 0.55, 0.5, 0.45, 0.4, 0.35],
    gains := [0.8, 0.75, 0.7, 0.65, 0.6, 0.55, 0.5, 0.45] }

/-- ReverbProcessor.setReverb: wet level clamped to [0, 1], dry level keeps
some dry signal even at maximum reverb. -/
def ReverbProcessor.setReverb (rv : ReverbProcessor) (amount : ℚ) : ReverbProcessor :=
  let wet := max 0 (min 1 amount)
  { rv with wetLevel := wet, dryLevel := 1 - wet * 0.7 }

/-- The inner loop of ReverbProcessor.process over the delay lines for one
input sample: read each line at its index, write back input plus feedback
times the tap, accumulate tap times gain, and advance each circular index. -/
def reverbDelayPass (inputSample : ℚ) :
    List (List ℚ) → List ℕ → List ℕ → List ℚ → List ℚ → ℚ × List (List ℚ) × List ℕ
  | delayLine :: lines, delayIndex :: indices, delayTime :: times, fb :: fbs, g :: gs =>
      let delayedSample := delayLine.getD delayIndex 0
      let newLine := delayLine.set delayIndex (inputSample + delayedSample * fb)
      let rest := reverbDelayPass inputSample lines indices times fbs gs
      (delayedSample * g + rest.1, newLine :: rest.2.1, ((delayIndex + 1) % delayTime) :: rest.2.2)
  | lines, indices, _, _, _ => (0, lines, indices)

/-- ReverbProcessor.process: per input sample, mono-sum the dry input, run the
delay-line pass, scale the wet sum by 0.3, and mix dry and wet into the output
buffers (which the source overwrites fully, so they are returned fresh). -/
def ReverbProcessor.processRun (rv : ReverbProcessor) :
    List ℚ → List ℚ → ReverbProcessor × List ℚ × List ℚ
  | [], _ => (rv, [], [])
  | l :: ls, rs =>
      let r := rs.headD 0
      let inputSample := (l + r) * 0.5
      let pass := reverbDelayPass inputSample rv.delayLines rv.delayIndices rv.delayTimes
        rv.feedbacks rv.gains
      let reverbSample := pass.1 * 0.3
      let dryLeft := l * rv.dryLevel
      let dryRight := r * rv.dryLevel
      let wetLeft := reverbSample * rv.wetLevel
      let wetRight := reverbSample * rv.wetLevel
      let rv2 := { rv with delayLines := pass.2.1, delayIndices := pass.2.2 }
      let res := rv2.processRun ls rs.tail
      (res.1, (dryLeft + wetLeft) :: res.2.1, (dryRight + wetRight) :: res.2.2)

/-! ## Events and scheduler -/

/-- The channel-scoped MIDI event subtypes dispatched by the event handler. -/
inductive MidiChannelBody
  | noteOn (noteNumber velocity : ℕ)
  | noteOff (noteNumber : ℕ)
  | pitchBend (value : ℕ)
  | programChange (value : ℕ)
  | controller (controllerType value : ℕ)
deriving DecidableEq, Repr

/-- A decoded MIDI channel event. -/
structure MidiEvent where
  channel : ℕ
  body : MidiChannelBody
deriving DecidableEq, Repr

/-- The tagged union of events accepted by addEvent. loadSample and
sampleParameter events carry no delayTime field; midi and reverbControl events
do. -/
inductive SynthEventBody
  | loadSample (data : List ℚ) (sampleID : ℕ)
  | sampleParameter (parameter : SampleParameter) (range : ParameterRange)
  | reverbControl (amount : ℚ) (delayTime : ℕ)
  | midi (midi : MidiEvent) (delayTime : ℕ)
deriving DecidableEq, Repr

/-- An event as submitted: a body plus the submission sequence number. -/
structure SynthEvent where
  body : SynthEventBody
  sequenceNumber : ℕ
deriving DecidableEq, Repr

/-- A generic delayable event held in the scheduler queue: the submitted midi
event spread with its computed scheduledFrame. -/
structure ScheduledMidiEvent where
  midi : MidiEvent
  delayTime : ℕ
  sequenceNumber : ℕ
  scheduledFrame : ℕ
deriving DecidableEq, Repr

/-- A reverb-control event held in the reverb queue. -/
structure ScheduledReverbEvent where
  amount : ℚ
  delayTime : ℕ
  sequenceNumber : ℕ
  scheduledFrame : ℕ
deriving DecidableEq, Repr

/-- The binary search of insertSorted: lower-bound insertion index for key
among the scheduledFrame values, narrowing the window [low, high). -/
def insertPosGo (frames : List ℕ) (key : ℕ) (low high : ℕ) : ℕ :=
  if low < high then
    let mid := (low + high) / 2
    if frames.getD mid 0 < key then insertPosGo frames key (mid + 1) high
    else insertPosGo frames key low mid
  else low
termination_by high - low
decreasing_by
  all_goals simp only [mid] at *
  all_goals omega

/-- insertSorted: splice the item into the array at the binary-search insertion
position determined by the scheduledFrame projection. -/
def insertSorted (arr : List α) (frame : α → ℕ) (item : α) : List α :=
  List.insertIdx (insertPosGo (arr.map frame) (frame item) 0 arr.length) item arr

/-- SynthEventScheduler queue state. currentReverbEvents is declared by the
source class but never used. -/
structure SynthEventScheduler where
  scheduledEvents : List ScheduledMidiEvent := []
  scheduledReverbEvents : List ScheduledReverbEvent := []
  currentEvents : List ScheduledMidiEvent := []
  currentReverbEvents : List ScheduledReverbEvent := []
deriving DecidableEq, Repr

/-- SynthEventScheduler.addEvent. The class routes immediate events through its
onImmediateEvent callback; this embedding returns the event to dispatch
immediately (if any) alongside the updated queues. -/
def SynthEventScheduler.addEvent (s : SynthEventScheduler) (currentFrame : ℕ)
    (e : SynthEvent) : SynthEventScheduler × Option SynthEventBody :=
  match e.body with
  | .reverbControl amount delayTime =>
      if delayTime > 0 then
        ({ s with
            scheduledReverbEvents :=
              insertSorted s.scheduledReverbEvents (fun x => x.scheduledFrame)
                { amount := amount, delayTime := delayTime,
                  sequenceNumber := e.sequenceNumber,
                  scheduledFrame := currentFrame + delayTime } }, none)
      else (s, some e.body)
  | .midi m delayTime =>
      ({ s with
          scheduledEvents :=
            insertSorted s.scheduledEvents (fun x => x.scheduledFrame)
              { midi := m, delayTime := delayTime,
                sequenceNumber := e.sequenceNumber,
                scheduledFrame := currentFrame + delayTime } }, none)
  | b => (s, some b)

/-- The sortEvents comparator: by scheduledFrame, then by sequenceNumber. -/
def sortEvents (a b : ScheduledMidiEvent) : ℤ :=
  if a.scheduledFrame < b.scheduledFrame then -1
  else if a.scheduledFrame > b.scheduledFrame then 1
  else if a.sequenceNumber < b.sequenceNumber then -1
  else if a.sequenceNumber > b.sequenceNumber then 1
  else 0

/-- The Boolean order modelling Array.prototype.sort with the sortEvents
comparator: a stays before b whenever the comparator is nonpositive (sort with
a consistent comparator is stable and sorts by it). -/
def sortEventsLE (a b : ScheduledMidiEvent) : Bool :=
  decide (sortEvents a b ≤ 0)

/-- SynthEventScheduler.processScheduledEvents, with the two dispatch callbacks
instantiated to record their arguments: pops every due reverb event in queue
order, and (unless the generic queue is empty) pops every due generic event
into currentEvents, sorts that batch with sortEvents and drains it. Returns
the updated scheduler, the reverb events dispatched and the generic events
dispatched, each in dispatch order. -/
def SynthEventScheduler.processScheduledEvents (s0 : SynthEventScheduler)
    (currentFrame : ℕ) :
    SynthEventScheduler × List ScheduledReverbEvent × List ScheduledMidiEvent :=
  let dueReverb := s0.scheduledReverbEvents.takeWhile
    (fun e => decide (e.scheduledFrame ≤ currentFrame))
  let restReverb := s0.scheduledReverbEvents.dropWhile
    (fun e => decide (e.scheduledFrame ≤ currentFrame))
  let s := { s0 with scheduledReverbEvents := restReverb }
  if s.scheduledEvents.isEmpty then (s, dueReverb, [])
  else
    let due := s.scheduledEvents.takeWhile (fun e => decide (e.scheduledFrame ≤ currentFrame))
    let rest := s.scheduledEvents.dropWhile (fun e => decide (e.scheduledFrame ≤ currentFrame))
    let batch := (s.currentEvents ++ due).mergeSort sortEventsLE
    ({ s with scheduledEvents := rest, currentEvents := [] }, dueReverb, batch)

/-- SynthEventScheduler.removeScheduledEvents: purge every pending and every
popped-but-undispatched generic event whose midi payload carries the channel;
reverb events carry no channel and are not filtered. -/
def SynthEventScheduler.removeScheduledEvents (s : SynthEventScheduler) (channel : ℕ) :
    SynthEventScheduler :=
  { s with
    scheduledEvents := s.scheduledEvents.filter (fun e => decide (e.midi.channel ≠ channel)),
    currentEvents := s.currentEvents.filter (fun e => decide (e.midi.channel ≠ channel)) }

/-- Observer: repeatedly call processScheduledEvents at the given sequence of
current frames, concatenating the generic events dispatched, in dispatch
order. -/
def schedulerDispatchTrace (s : SynthEventScheduler) : List ℕ → List ScheduledMidiEvent
  | [] => []
  | f :: fs =>
      let res := s.processScheduledEvents f
      res.2.2 ++ schedulerDispatchTrace res.1 fs

/-! ## Event handler state and synth processor core -/

/-- The per-channel RPN bookkeeping of SynthEventHandler (the source stores the
controller events themselves; only their value bytes are ever read). -/
structure RpnEntry where
  rpnMSB : Option ℕ := none
  rpnLSB : Option ℕ := none
  dataMSB : Option ℕ := none
  dataLSB : Option ℕ := none
deriving DecidableEq, Repr

/-- SynthEventHandler instance state. -/
structure SynthEventHandler where
  rpnEvents : List (ℕ × RpnEntry) := []
  bankSelectMSB : List (ℕ × ℕ) := []
deriving DecidableEq, Repr

/-- The reserved percussion channel. -/
def RHYTHM_CHANNEL : ℕ := 9

/-- The bank substituted for the percussion channel. -/
def RHYTHM_BANK : ℕ := 128

/-- SynthProcessorCore instance state (the processor owns the sample table,
the channel states, the scheduler, the handler bookkeeping and the reverb). -/
structure SynthProcessorCore where
  sampleRate : ℚ
  sampleTable : SampleTable := {}
  channels : List (ℕ × ChannelState) := []
  eventScheduler : SynthEventScheduler := {}
  eventHandler : SynthEventHandler := {}
  reverbProcessor : ReverbProcessor

/-- The SynthProcessorCore constructor. -/
def SynthProcessorCore.create (sampleRate : ℚ) : SynthProcessorCore :=
  { sampleRate := sampleRate, reverbProcessor := ReverbProcessor.create sampleRate }

/-- SynthProcessorCore.getChannelState: look the channel up, lazily creating it
with the defaults on first reference. -/
def SynthProcessorCore.getChannelState (st : SynthProcessorCore) (channel : ℕ) :
    ChannelState × SynthProcessorCore :=
  match alookup st.channels channel with
  | some state => (state, st)
  | none =>
      (initialChannelState, { st with channels := aset st.channels channel initialChannelState })

/-- Write a channel state back (the source mutates the state object returned by
getChannelState in place). -/
def SynthProcessorCore.putChannel (st : SynthProcessorCore) (channel : ℕ)
    (state : ChannelState) : SynthProcessorCore :=
  { st with channels := aset st.channels channel state }

/-- SynthProcessorCore.getSamples: resolve through the sample table, playing
drums (the rhythm bank) for the reserved percussion channel. -/
def SynthProcessorCore.getSamples (st : SynthProcessorCore) (channel pitch velocity : ℕ) :
    List SampleWithBuffer × SynthProcessorCore :=
  let res := st.getChannelState channel
  let bank := if channel = RHYTHM_CHANNEL then RHYTHM_BANK else res.1.bank
  (res.2.sampleTable.getSamples bank res.1.instrument pitch velocity, res.2)

/-- SynthProcessorCore.addSample. -/
def SynthProcessorCore.addSample (st : SynthProcessorCore) (data : List ℚ) (sampleID : ℕ) :
    SynthProcessorCore :=
  { st with sampleTable := st.sampleTable.addSample data sampleID }

/-- SynthProcessorCore.addSampleParameter. -/
def SynthProcessorCore.addSampleParameter (st : SynthProcessorCore)
    (parameter : SampleParameter) (range : ParameterRange) : SynthProcessorCore :=
  { st with sampleTable := st.sampleTable.addSampleParameter parameter range }

/-- SynthProcessorCore.setReverb. -/
def SynthProcessorCore.setReverb (st : SynthProcessorCore) (amount : ℚ) : SynthProcessorCore :=
  { st with reverbProcessor := st.reverbProcessor.setReverb amount }

/-- The per-voice body of the exclusive-class sweep inside
SynthProcessorCore.noteOn: force-stop a voice exactly when its sample declares
the exclusive class x of the sample being started. -/
def sweepVoice (x : ℕ) (osc : WavetableOscillator) : WavetableOscillator :=
  if osc.sample.exclusiveClass = some x then osc.forceStop else osc

/-- The exclusive-class sweep inside SynthProcessorCore.noteOn: apply
sweepVoice to every voice of every key of the channel. -/
def noteOnSweep (x : ℕ) (oscillators : List (ℕ × List WavetableOscillator)) :
    List (ℕ × List WavetableOscillator) :=
  oscillators.map (fun kv => (kv.1, kv.2.map (sweepVoice x)))

/-- The loop body of SynthProcessorCore.noteOn for one resolved sample: create
the voice and start it, ensure the per-key list exists, run the
exclusive-class sweep over the whole channel when the sample declares one, and
only then push the new voice onto the per-key list. -/
def noteOnSample (M : MathOps) (sampleRate : ℚ) (pitch velocity : ℕ)
    (state0 : ChannelState) (sample : SampleWithBuffer) : ChannelState :=
  let oscillator := WavetableOscillator.create sample sampleRate
  let volume := (velocity : ℚ) / 127
  let oscillator := oscillator.noteOn M pitch volume
  let state1 := if alookup state0.oscillators pitch = none then
      { state0 with oscillators := aset state0.oscillators pitch [] }
    else state0
  let state2 := match sample.exclusiveClass with
    | some x => { state1 with oscillators := noteOnSweep x state1.oscillators }
    | none => state1
  { state2 with
    oscillators :=
      aset state2.oscillators pitch
        ((alookup state2.oscillators pitch).getD [] ++ [oscillator]) }

/-- SynthProcessorCore.noteOn: resolve samples (no-op when none is found),
then run the loop body for each resolved sample in order. -/
def SynthProcessorCore.noteOn (M : MathOps) (st0 : SynthProcessorCore)
    (channel pitch velocity : ℕ) : SynthProcessorCore :=
  let res0 := st0.getChannelState channel
  let res1 := res0.2.getSamples channel pitch velocity
  let st := res1.2
  let samples := res1.1
  if samples.isEmpty then st
  else st.putChannel channel
    (samples.foldl (noteOnSample M st.sampleRate pitch velocity) res0.1)

/-- SynthProcessorCore.noteOff: for every not-yet-released voice at the key,
either mark it held (hold pedal engaged) or release it. -/
def SynthProcessorCore.noteOff (st0 : SynthProcessorCore) (channel pitch : ℕ) :
    SynthProcessorCore :=
  let res := st0.getChannelState channel
  let state := res.1
  let st := res.2
  match alookup state.oscillators pitch with
  | none => st
  | some oscs =>
      let oscs := oscs.map (fun osc =>
        if osc.isNoteOffFlag then osc
        else if state.hold then { osc with isHold := true }
        else osc.noteOff)
      st.putChannel channel { state with oscillators := aset state.oscillators pitch oscs }

/-- SynthProcessorCore.pitchBend: store the normalized bend. -/
def SynthProcessorCore.pitchBend (st0 : SynthProcessorCore) (channel value : ℕ) :
    SynthProcessorCore :=
  let res := st0.getChannelState channel
  res.2.putChannel channel
    { res.1 with pitchBend := ((value : ℚ) / 0x2000 - 1) * res.1.pitchBendSensitivity }

/-- SynthProcessorCore.programChange. -/
def SynthProcessorCore.programChange (st0 : SynthProcessorCore) (channel value : ℕ) :
    SynthProcessorCore :=
  let res := st0.getChannelState channel
  res.2.putChannel channel { res.1 with instrument := value }

/-- SynthProcessorCore.setPitchBendSensitivity. -/
def SynthProcessorCore.setPitchBendSensitivity (st0 : SynthProcessorCore) (channel value : ℕ) :
    SynthProcessorCore :=
  let res := st0.getChannelState channel
  res.2.putChannel channel { res.1 with pitchBendSensitivity := (value : ℚ) }

/-- SynthProcessorCore.setMainVolume. -/
def SynthProcessorCore.setMainVolume (st0 : SynthProcessorCore) (channel value : ℕ) :
    SynthProcessorCore :=
  let res := st0.getChannelState channel
  res.2.putChannel channel { res.1 with volume := (value : ℚ) / 127 }

/-- SynthProcessorCore.expression. -/
def SynthProcessorCore.expression (st0 : SynthProcessorCore) (channel value : ℕ) :
    SynthProcessorCore :=
  let res := st0.getChannelState channel
  res.2.putChannel channel { res.1 with expression := (value : ℚ) / 127 }

/-- SynthProcessorCore.allSoundsOff: cancel the channel's pending scheduled
events, then force-stop every voice on the channel. -/
def SynthProcessorCore.allSoundsOff (st0 : SynthProcessorCore) (channel : ℕ) :
    SynthProcessorCore :=
  let st1 := { st0 with eventScheduler := st0.eventScheduler.removeScheduledEvents channel }
  let res := st1.getChannelState channel
  res.2.putChannel channel
    { res.1 with
      oscillators := res.1.oscillators.map (fun kv =>
        (kv.1, kv.2.map WavetableOscillator.forceStop)) }

/-- SynthProcessorCore.allNotesOff: ordinary note-off to every voice. -/
def SynthProcessorCore.allNotesOff (st0 : SynthProcessorCore) (channel : ℕ) :
    SynthProcessorCore :=
  let res := st0.getChannelState channel
  res.2.putChannel channel
    { res.1 with
      oscillators := res.1.oscillators.map (fun kv =>
        (kv.1, kv.2.map WavetableOscillator.noteOff)) }

/-- SynthProcessorCore.hold: engage at value 64 and above; on release, send
note-off to every voice previously marked held. -/
def SynthProcessorCore.hold (st0 : SynthProcessorCore) (channel value : ℕ) :
    SynthProcessorCore :=
  let holdFlag := decide (value ≥ 64)
  let res := st0.getChannelState channel
  let state := { res.1 with hold := holdFlag }
  if holdFlag then res.2.putChannel channel state
  else
    res.2.putChannel channel
      { state with
        oscillators := state.oscillators.map (fun kv =>
          (kv.1, kv.2.map (fun osc => if osc.isHold then osc.noteOff else osc))) }

/-- SynthProcessorCore.setPan. -/
def SynthProcessorCore.setPan (st0 : SynthProcessorCore) (channel value : ℕ) :
    SynthProcessorCore :=
  let res := st0.getChannelState channel
  res.2.putChannel channel { res.1 with pan := ((value : ℚ) / 127 - 0.5) * 2 }

/-- SynthProcessorCore.bankSelect. -/
def SynthProcessorCore.bankSelect (st0 : SynthProcessorCore) (channel value : ℕ) :
    SynthProcessorCore :=
  let res := st0.getChannelState channel
  res.2.putChannel channel { res.1 with bank := value }

/-- SynthProcessorCore.modulation. -/
def SynthProcessorCore.modulation (st0 : SynthProcessorCore) (channel value : ℕ) :
    SynthProcessorCore :=
  let res := st0.getChannelState channel
  res.2.putChannel channel { res.1 with modulation := (value : ℚ) / 127 }

/-- SynthProcessorCore.resetChannel: delete the channel state (it is recreated
with the defaults on next reference). -/
def SynthProcessorCore.resetChannel (st : SynthProcessorCore) (channel : ℕ) :
    SynthProcessorCore :=
  { st with channels := adelete st.channels channel }

/-- SynthEventHandler.handleImmediateEvent. -/
def SynthProcessorCore.handleImmediateEvent (st : SynthProcessorCore) (e : SynthEventBody) :
    SynthProcessorCore :=
  match e with
  | .sampleParameter parameter range => st.addSampleParameter parameter range
  | .loadSample data sampleID => st.addSample data sampleID
  | .reverbControl amount _ => st.setReverb amount
  | .midi _ _ => st

/-- The controller branch of SynthEventHandler.handleDelayableEvent, keyed by
the standard MIDI control-change numbers. -/
def SynthProcessorCore.handleController (st : SynthProcessorCore)
    (channel controllerType value : ℕ) : SynthProcessorCore :=
  if controllerType = 0x63 ∨ controllerType = 0x62 then
    { st with
      eventHandler :=
        { st.eventHandler with rpnEvents := adelete st.eventHandler.rpnEvents channel } }
  else if controllerType = 0x65 then
    if value = 127 then
      { st with
        eventHandler :=
          { st.eventHandler with rpnEvents := adelete st.eventHandler.rpnEvents channel } }
    else
      { st with
        eventHandler :=
          { st.eventHandler with
            rpnEvents :=
              aset st.eventHandler.rpnEvents channel
                { (alookup st.eventHandler.rpnEvents channel).getD {} with
                  rpnMSB := some value } } }
  else if controllerType = 0x64 then
    if value = 127 then
      { st with
        eventHandler :=
          { st.eventHandler with rpnEvents := adelete st.eventHandler.rpnEvents channel } }
    else
      { st with
        eventHandler :=
          { st.eventHandler with
            rpnEvents :=
              aset st.eventHandler.rpnEvents channel
                { (alookup st.eventHandler.rpnEvents channel).getD {} with
                  rpnLSB := some value } } }
  else if controllerType = 0x06 then
    let rpn := { (alookup st.eventHandler.rpnEvents channel).getD {} with dataMSB := some value }
    let st1 :=
      { st with
        eventHandler :=
          { st.eventHandler with rpnEvents := aset st.eventHandler.rpnEvents channel rpn } }
    if rpn.rpnLSB = some 0 then st1.setPitchBendSensitivity channel value else st1
  else if controllerType = 0x26 then
    { st with
      eventHandler :=
        { st.eventHandler with
          rpnEvents :=
            aset st.eventHandler.rpnEvents channel
              { (alookup st.eventHandler.rpnEvents channel).getD {} with
                dataLSB := some value } } }
  else if controllerType = 0x07 then st.setMainVolume channel value
  else if controllerType = 0x0b then st.expression channel value
  else if controllerType = 0x78 then st.allSoundsOff channel
  else if controllerType = 0x7b then st.allNotesOff channel
  else if controllerType = 0x40 then st.hold channel value
  else if controllerType = 0x0a then st.setPan channel value
  else if controllerType = 0x01 then st.modulation channel value
  else if controllerType = 0x00 then
    { st with
      eventHandler :=
        { st.eventHandler with
          bankSelectMSB := aset st.eventHandler.bankSelectMSB channel value } }
  else if controllerType = 0x20 then
    match alookup st.eventHandler.bankSelectMSB channel with
    | some msb => st.bankSelect channel ((msb <<< 7) + value)
    | none => st
  else if controllerType = 0x79 then st.resetChannel channel
  else st

/-- SynthEventHandler.handleDelayableEvent for channel events. -/
def SynthProcessorCore.handleDelayableEvent (M : MathOps) (st : SynthProcessorCore)
    (e : MidiEvent) : SynthProcessorCore :=
  match e.body with
  | .noteOn noteNumber velocity => st.noteOn M e.channel noteNumber velocity
  | .noteOff noteNumber => st.noteOff e.channel noteNumber
  | .pitchBend value => st.pitchBend e.channel value
  | .programChange value => st.programChange e.channel value
  | .controller controllerType value => st.handleController e.channel controllerType value

/-- The final dispatch loop of processScheduledEvents: repeatedly shift the
head of currentEvents and hand it to handleDelayableEvent (which may itself
shrink currentEvents through allSoundsOff). No handler ever enqueues into
currentEvents, so taking the batch length as fuel drains the queue exactly as
the source while loop does. -/
def SynthProcessorCore.dispatchCurrentEvents (M : MathOps) :
    ℕ → SynthProcessorCore → SynthProcessorCore
  | 0, st => st
  | fuel + 1, st =>
      match st.eventScheduler.currentEvents with
      | [] => st
      | e :: rest =>
          let st1 := { st with eventScheduler := { st.eventScheduler with currentEvents := rest } }
          SynthProcessorCore.dispatchCurrentEvents M fuel (st1.handleDelayableEvent M e.midi)

/-- SynthProcessorCore side of processScheduledEvents: dispatch every due
reverb event immediately (setReverb), then pop every due generic event into
currentEvents, sort the batch with sortEvents, and drain it through
handleDelayableEvent. -/
def SynthProcessorCore.processScheduledEvents (M : MathOps) (st0 : SynthProcessorCore)
    (currentFrame : ℕ) : SynthProcessorCore :=
  let dueReverb := st0.eventScheduler.scheduledReverbEvents.takeWhile
    (fun e => decide (e.scheduledFrame ≤ currentFrame))
  let restReverb := st0.eventScheduler.scheduledReverbEvents.dropWhile
    (fun e => decide (e.scheduledFrame ≤ currentFrame))
  let st := { st0 with eventScheduler := { st0.eventScheduler with scheduledReverbEvents := restReverb } }
  let st := dueReverb.foldl (fun s e => s.setReverb e.amount) st
  if st.eventScheduler.scheduledEvents.isEmpty then st
  else
    let due := st.eventScheduler.scheduledEvents.takeWhile
      (fun e => decide (e.scheduledFrame ≤ currentFrame))
    let rest := st.eventScheduler.scheduledEvents.dropWhile
      (fun e => decide (e.scheduledFrame ≤ currentFrame))
    let batch := (st.eventScheduler.currentEvents ++ due).mergeSort sortEventsLE
    let st1 :=
      { st with
        eventScheduler :=
          { st.eventScheduler with scheduledEvents := rest, currentEvents := batch } }
    SynthProcessorCore.dispatchCurrentEvents M batch.length st1

/-- SynthProcessorCore.addEvent: route through the scheduler, dispatching an
immediate event at once. -/
def SynthProcessorCore.addEvent (st : SynthProcessorCore) (currentFrame : ℕ)
    (e : SynthEvent) : SynthProcessorCore :=
  let res := st.eventScheduler.addEvent currentFrame e
  let st1 := { st with eventScheduler := res.1 }
  match res.2 with
  | some b => st1.handleImmediateEvent b
  | none => st1

/-- The per-voice render step of SynthProcessorCore.process: push the channel's
current pitch-bend, volume, expression, pan and modulation onto each voice,
render it into the dry buffers, and keep it only while it is still playing. -/
def renderVoiceList (M : MathOps) (state : ChannelState) :
    List WavetableOscillator → List ℚ → List ℚ →
    List WavetableOscillator × List ℚ × List ℚ
  | [], l, r => ([], l, r)
  | osc :: restOscs, l, r =>
      let osc := { osc with
        speed := M.pow2 (state.pitchBend / 12),
        volume := state.volume * state.expression,
        pan := state.pan,
        modulation := state.modulation }
      let res := osc.process M l r
      let rest := renderVoiceList M state restOscs res.2.1 res.2.2
      (if res.1.isPlaying then res.1 :: rest.1 else rest.1, rest.2.1, rest.2.2)

/-- Iterate renderVoiceList over the per-key voice lists of a channel. -/
def renderChannelKeys (M : MathOps) (state : ChannelState) :
    List (ℕ × List WavetableOscillator) → List ℚ → List ℚ →
    List (ℕ × List WavetableOscillator) × List ℚ × List ℚ
  | [], l, r => ([], l, r)
  | (key, oscs) :: restKeys, l, r =>
      let res := renderVoiceList M state oscs l r
      let rest := renderChannelKeys M state restKeys res.2.1 res.2.2
      ((key, res.1) :: rest.1, rest.2.1, rest.2.2)

/-- Iterate the render over every channel. -/
def renderChannels (M : MathOps) :
    List (ℕ × ChannelState) → List ℚ → List ℚ →
    List (ℕ × ChannelState) × List ℚ × List ℚ
  | [], l, r => ([], l, r)
  | (ch, state) :: restChannels, l, r =>
      let res := renderChannelKeys M state state.oscillators l r
      let rest := renderChannels M restChannels res.2.1 res.2.2
      ((ch, { state with oscillators := res.1 }) :: rest.1, rest.2.1, rest.2.2)

/-- SynthProcessorCore.process: drain due scheduled events, render every voice
of every channel into fresh dry buffers (dropping finished voices), then run
the reverb over the dry mix to produce the output buffers. -/
def SynthProcessorCore.process (M : MathOps) (st0 : SynthProcessorCore)
    (currentFrame bufferSize : ℕ) : SynthProcessorCore × List ℚ × List ℚ :=
  let st := st0.processScheduledEvents M currentFrame
  let dryLeft : List ℚ := List.replicate bufferSize 0
  let dryRight : List ℚ := List.replicate bufferSize 0
  let res := renderChannels M st.channels dryLeft dryRight
  let st1 := { st with channels := res.1 }
  let rev := st1.reverbProcessor.processRun res.2.1 res.2.2
  ({ st1 with reverbProcessor := rev.1 }, rev.2.1, rev.2.2)

/-! ## Offline render driver -/

/-- getSongLength: the largest delay of the musical events, in frames (the
source max helper yields undefined on an empty list, coalesced to 0). -/
def getSongLength (events : List SynthEventBody) : ℕ :=
  (events.map (fun e => match e with
    | .midi _ delayTime => delayTime
    | _ => 0)).foldl Nat.max 0

/-- Maximum time to wait for the release tail to become silent, in seconds. -/
def silentTimeoutSec : ℕ := 5

/-- isArrayZero. -/
def isArrayZero (arr : List ℚ) : Bool :=
  arr.all (fun x => decide (x = 0))

/-- The options accepted by renderAudio. The cancel closure reads external
mutable state in the source; it is determinized as a function of the loop
iteration at which it is polled. -/
structure RenderAudioOptions where
  sampleRate : ℕ := 44100
  bufferSize : ℕ := 500
  cancel : ℕ → Bool := fun _ => false

/-- The audio data renderAudio resolves with. -/
structure AudioData where
  length : ℕ
  leftData : List ℚ
  rightData : List ℚ
  sampleRate : ℕ
deriving DecidableEq, Repr

/-- Float32Array.prototype.set: overwrite dst from offset with src. -/
def writeAt (dst : List ℚ) (offset : ℕ) (src : List ℚ) : List ℚ :=
  dst.take offset ++ src ++ dst.drop (offset + src.length)

/-- The render loop of renderAudio: per iteration, process one buffer, copy it
into the output arrays, advance the frame counter, break early once past the
song length when a buffer of exact silence appears, and every 1000 iterations
poll the cancel predicate, throwing the cancellation error when it reports
true. -/
def renderAudioLoop (M : MathOps) (cancel : ℕ → Bool) (iterCount bufSize : ℕ) :
    ℕ → ℕ → ℕ → SynthProcessorCore → List ℚ → List ℚ →
    Except String (ℕ × List ℚ × List ℚ)
  | 0, _, currentFrame, _, leftData, rightData => .ok (currentFrame, leftData, rightData)
  | remaining + 1, i, currentFrame, synth, leftData, rightData =>
      let res := synth.process M currentFrame bufSize
      let offset := i * bufSize
      let leftData1 := writeAt leftData offset res.2.1
      let rightData1 := writeAt rightData offset res.2.2
      let currentFrame1 := currentFrame + bufSize
      if i > iterCount ∧ isArrayZero res.2.1 ∧ isArrayZero res.2.2 then
        .ok (currentFrame1, leftData1, rightData1)
      else if i % 1000 = 0 ∧ cancel i then .error "renderAudio cancelled"
      else renderAudioLoop M cancel iterCount bufSize remaining (i + 1) currentFrame1 res.1
        leftData1 rightData1

/-- renderAudio: build a fresh synth, submit the sample events then the musical
events (assigning ascending sequence numbers, at frame 0), then render
song-length plus silence-timeout worth of buffers (with early break on
silence), and resolve with the output trimmed to the frames actually
rendered. Cancellation surfaces as the thrown error. -/
def renderAudio (M : MathOps) (samples events : List SynthEventBody)
    (options : RenderAudioOptions) : Except String AudioData :=
  let sampleRate := options.sampleRate
  let bufSize := options.bufferSize
  let synth := SynthProcessorCore.create (sampleRate : ℚ)
  let sampleEvents := samples.enum.map (fun p => SynthEvent.mk p.2 p.1)
  let musicEvents := events.enum.map (fun p => SynthEvent.mk p.2 (samples.length + p.1))
  let synth := (sampleEvents ++ musicEvents).foldl (fun s e => s.addEvent 0 e) synth
  let songLengthFrame := getSongLength events
  let iterCount := ⌈(songLengthFrame : ℚ) / (bufSize : ℚ)⌉₊
  let additionalIterCount := ⌈((silentTimeoutSec * sampleRate : ℕ) : ℚ) / (bufSize : ℚ)⌉₊
  let allIterCount := iterCount + additionalIterCount
  let audioBufferSize := allIterCount * bufSize
  let leftData := List.replicate audioBufferSize (0 : ℚ)
  let rightData := List.replicate audioBufferSize (0 : ℚ)
  match renderAudioLoop M options.cancel iterCount bufSize allIterCount 0 0 synth
    leftData rightData with
  | .error msg => .error msg
  | .ok res =>
      let trimmedLeft := res.2.1.take res.1
      let trimmedRight := res.2.2.take res.1
      .ok { length := trimmedLeft.length, leftData := trimmedLeft,
            rightData := trimmedRight, sampleRate := sampleRate }

/-! ## Concrete values used by the witnesses -/

/-- A concrete envelope parameter set for witnesses. -/
def exampleEnvelopeParameter : AmplitudeEnvelopeParameter :=
  { attackTime := 1, holdTime := 1, decayTime := 1, sustainLevel := 1, releaseTime := 1 }

/-- A concrete sample parameter for witnesses. -/
def exampleParameter : SampleParameter :=
  { sampleID := 7, pitch := 60, scaleTuning := 1, sampleStart := 0, sampleEnd := 4,
    loopKind := .noLoop, loopStart := 1, loopEnd := 3, samplePan := 0, sampleVolume := 1,
    sampleSampleRate := 44100, exclusiveClass := none,
    amplitudeEnvelope := exampleEnvelopeParameter }

/-- A concrete sample table for witnesses: one buffer and one parameter
registered over keys 60 to 62 with velocity range 10 to 100. -/
def exampleTable : SampleTable :=
  (SampleTable.addSample {} [1, 2, 3, 4] 7).addSampleParameter exampleParameter
    { bank := 0, instrument := 0, keyRange := (60, 62), velRange := (10, 100) }

/-- A concrete envelope state for the C4 witness: sustain phase, last
amplitude 1, sample rate 10. -/
def exampleEnvelope : AmplitudeEnvelope :=
  { parameter := exampleEnvelopeParameter, phase := .sustain,
    lastAmplitude := 1, sampleRate := 10 }

/-- A concrete continuous-loop sample (loop from 1 to 3, sample end 4) for the
C5 witness. -/
def exampleLoopSample : SampleWithBuffer :=
  { toRegisteredParameter :=
      { toSampleParameter := { exampleParameter with loopKind := .loopContinuous },
        velRange := (0, 127) },
    buffer := [1, 2, 3, 4] }

/-- A second witness table: the example table with a further parameter
registered under bank 3, instrument 1 only, so that bank 3 exists while
(bank 3, instrument 0) is unresolvable. -/
def exampleTable2 : SampleTable :=
  exampleTable.addSampleParameter exampleParameter
    { bank := 3, instrument := 1, keyRange := (60, 60), velRange := (0, 127) }

/-- A sample parameter carrying exclusive class 1, for the C3 witness. -/
def exampleExclusiveParameter : SampleParameter :=
  { exampleParameter with exclusiveClass := some 1 }

/-- The exclusive-class sample paired with its buffer, for the C3 witness. -/
def exampleExclusiveSample : SampleWithBuffer :=
  { toRegisteredParameter :=
      { toSampleParameter := exampleExclusiveParameter, velRange := (10, 100) },
    buffer := [1, 2, 3, 4] }

/-- A voice of exclusive class 1 already sounding at key 62. -/
def exampleVoice : WavetableOscillator :=
  (WavetableOscillator.create exampleExclusiveSample 44100).noteOn defaultMathOps 62 (1 / 2)

/-- The plain sample paired with its buffer, for the C10 witness. -/
def exampleSample : SampleWithBuffer :=
  { toRegisteredParameter := { toSampleParameter := exampleParameter, velRange := (10, 100) },
    buffer := [1, 2, 3, 4] }

/-- A sample table registering the exclusive-class parameter. -/
def exampleSynthTable : SampleTable :=
  (SampleTable.addSample {} [1, 2, 3, 4] 7).addSampleParameter exampleExclusiveParameter
    { bank := 0, instrument := 0, keyRange := (60, 62), velRange := (10, 100) }

/-- A synth state for the C3 witness: the exclusive-class table loaded and one
voice of class 1 active at key 62 of channel 0. -/
def exampleSynth : SynthProcessorCore :=
  { SynthProcessorCore.create 44100 with
    sampleTable := exampleSynthTable,
    channels := [(0, { initialChannelState with oscillators := [(62, [exampleVoice])] })] }

/-- A synth state for the C10 witness: the plain example table loaded and
channel 0 present with no active voices. -/
def exampleSynth2 : SynthProcessorCore :=
  { SynthProcessorCore.create 44100 with
    sampleTable := exampleTable,
    channels := [(0, initialChannelState)] }

/-! ## Association-list model lemmas -/

theorem alookup_aset_self (m : List (ℕ × α)) (k : ℕ) (v : α) :
    alookup (aset m k v) k = some v := by
  induction m with
  | nil => simp [aset, alookup]
  | cons kv rest ih =>
      obtain ⟨k0, v0⟩ := kv
      by_cases h1 : k < k0
      · simp [aset, h1, alookup]
      · by_cases h2 : k = k0
        · simp [aset, h1, h2, alookup]
        · simp [aset, h1, h2, alookup, ih]

theorem alookup_aset_ne (m : List (ℕ × α)) (k k2 : ℕ) (v : α) (h : k2 ≠ k) :
    alookup (aset m k v) k2 = alookup m k2 := by
  induction m with
  | nil => simp [aset, alookup, h]
  | cons kv rest ih =>
      obtain ⟨k0, v0⟩ := kv
      by_cases h1 : k < k0
      · simp [aset, h1, alookup, h]
      · by_cases h2 : k = k0
        · subst h2
          simp [aset, h1, alookup, h]
        · simp [aset, h1, h2, alookup, ih]

theorem alookup_map_values (f : β → β) (m : List (ℕ × β)) (k : ℕ) :
    alookup (m.map (fun kv => (kv.1, f kv.2))) k = (alookup m k).map f := by
  induction m with
  | nil => simp [alookup]
  | cons kv rest ih =>
      obtain ⟨k0, v0⟩ := kv
      by_cases h : k = k0
      · simp [alookup, h]
      · simp [alookup, h, ih]

theorem alookup_getD_nil (o : Option (List (ℕ × α))) (j : ℕ) :
    alookup (o.getD []) j = o.bind (fun m => alookup m j) := by
  cases o <;> simp [alookup]

/-! ## Sample table lemmas and claims C2 and C9 -/

theorem parametersAt_addKey (p : SampleParameter) (vr : ℕ × ℕ) (b inst : ℕ)
    (t : SampleTable) (i k : ℕ) :
    (addSampleParameterKey p vr b inst t i).parametersAt b inst k =
      if k = i then
        t.parametersAt b inst k ++ [{ toSampleParameter := p, velRange := vr }]
      else t.parametersAt b inst k := by
  simp only [addSampleParameterKey, SampleTable.parametersAt, alookup_aset_self,
    Option.some_bind]
  by_cases hk : k = i
  · subst hk
    simp [alookup_aset_self, alookup_getD_nil]
  · simp [alookup_aset_ne _ _ _ _ hk, alookup_getD_nil, hk]

theorem parametersAt_fold (p : SampleParameter) (vr : ℕ × ℕ) (b inst : ℕ) :
    ∀ (ks : List ℕ) (t : SampleTable) (k : ℕ), ks.Nodup →
      ((ks.foldl (addSampleParameterKey p vr b inst) t).parametersAt b inst k =
        if k ∈ ks then
          t.parametersAt b inst k ++ [{ toSampleParameter := p, velRange := vr }]
        else t.parametersAt b inst k) := by
  intro ks
  induction ks with
  | nil => intro t k _; simp
  | cons i rest ih =>
      intro t k hnd
      have hnotin : i ∉ rest := (List.nodup_cons.mp hnd).1
      have hndr : rest.Nodup := (List.nodup_cons.mp hnd).2
      simp only [List.foldl_cons]
      rw [ih _ _ hndr, parametersAt_addKey]
      by_cases hk : k ∈ rest
      · have hki : k ≠ i := fun h => hnotin (h ▸ hk)
        simp [hk, hki]
      · by_cases hke : k = i
        · simp [hk, hke, hnotin]
        · simp [hk, hke]

theorem filterMap_buffers (t : SampleTable) :
    ∀ l : List RegisteredParameter,
      (∀ p ∈ l, (alookup t.samples p.sampleID).isSome = true) →
      (l.filterMap (fun parameter => (alookup t.samples parameter.sampleID).map
          (fun buffer =>
            ({ toRegisteredParameter := parameter, buffer := buffer } : SampleWithBuffer)))) =
        l.map (fun parameter =>
          { toRegisteredParameter := parameter,
            buffer := (alookup t.samples parameter.sampleID).getD [] }) := by
  intro l
  induction l with
  | nil => intro _; simp
  | cons p rest ih =>
      intro h
      have hp := h p (List.mem_cons_self p rest)
      obtain ⟨buf, hbuf⟩ := Option.isSome_iff_exists.mp hp
      simp [List.filterMap_cons, hbuf, ih (fun q hq => h q (List.mem_cons_of_mem p hq))]

theorem instrumentParametersAt_of_none (t : SampleTable) (bank instrument : ℕ)
    (h : (alookup t.sampleParameters bank).bind (fun m => alookup m instrument) = none) :
    t.instrumentParametersAt bank instrument = t.instrumentParametersAt 0 instrument := by
  unfold SampleTable.instrumentParametersAt
  rw [h]
  cases h0 : (alookup t.sampleParameters 0).bind (fun m => alookup m instrument) <;>
    simp [Option.orElse, h0]

/-- C2: for every (bank, instrument, key, velocity): when the (bank,
instrument) entry resolves to an instrument map m and every parameter
registered under the key has a stored buffer, getSamples returns exactly the
parameters at that key whose inclusive velocity range contains the velocity,
in registration order, each paired with its sample buffer; when the (bank,
instrument) entry is unresolvable, the result is that of bank 0; an
unresolvable instrument or key yields the empty list rather than an error;
and registering one parameter with addSampleParameter over a key range yields,
at every key of the range, the previous list with that parameter appended. -/
theorem C2_getSamples_spec (t : SampleTable) (bank instrument key velocity : ℕ) :
    (∀ m, t.instrumentParametersAt bank instrument = some m →
      (∀ p ∈ (alookup m key).getD ([] : List RegisteredParameter),
          (alookup t.samples p.sampleID).isSome = true) →
      t.getSamples bank instrument key velocity =
        (((alookup m key).getD []).filter
          (fun s => decide (velocity ≥ s.velRange.1) && decide (velocity ≤ s.velRange.2))).map
          (fun p => { toRegisteredParameter := p,
                      buffer := (alookup t.samples p.sampleID).getD [] })) ∧
    ((alookup t.sampleParameters bank).bind (fun m => alookup m instrument) = none →
      t.getSamples bank instrument key velocity = t.getSamples 0 instrument key velocity) ∧
    (t.instrumentParametersAt bank instrument = none →
      t.getSamples bank instrument key velocity = []) ∧
    (∀ m, t.instrumentParametersAt bank instrument = some m → alookup m key = none →
      t.getSamples bank instrument key velocity = []) ∧
    (∀ (parameter : SampleParameter) (range : ParameterRange) (k : ℕ),
      range.keyRange.1 ≤ k → k ≤ range.keyRange.2 →
      (t.addSampleParameter parameter range).parametersAt range.bank range.instrument k =
        t.parametersAt range.bank range.instrument k ++
          [{ toSampleParameter := parameter, velRange := range.velRange }]) := by
  refine ⟨?_, ?_, ?_, ?_, ?_⟩
  · intro m hm hbuf
    unfold SampleTable.getSamples
    rw [hm]
    simp only [Option.some_bind]
    exact filterMap_buffers t _ (fun p hp => hbuf p (List.mem_of_mem_filter hp))
  · intro hnone
    unfold SampleTable.getSamples
    rw [instrumentParametersAt_of_none t bank instrument hnone]
  · intro hnone
    unfold SampleTable.getSamples
    rw [hnone]
    simp
  · intro m hm hkey
    unfold SampleTable.getSamples
    rw [hm]
    simp [hkey]
  · intro parameter range k h1 h2
    unfold SampleTable.addSampleParameter
    rw [parametersAt_fold parameter range.velRange range.bank range.instrument _ t k
      (List.nodup_range' _ _)]
    have hk : k ∈ List.range' range.keyRange.1 (range.keyRange.2 + 1 - range.keyRange.1) := by
      rw [List.mem_range'_1]
      omega
    simp [hk]

/-- Witness for C2: bank fallback and key-range registration at the concrete
example table. -/
theorem C2_getSamples_spec_witness :
    (exampleTable.getSamples 5 0 61 50 = exampleTable.getSamples 0 0 61 50) ∧
    ((exampleTable.addSampleParameter exampleParameter
        { bank := 1, instrument := 2, keyRange := (10, 12), velRange := (0, 127) }).parametersAt
          1 2 11 =
      exampleTable.parametersAt 1 2 11 ++
        [{ toSampleParameter := exampleParameter, velRange := (0, 127) }]) :=
  ⟨(C2_getSamples_spec exampleTable 5 0 61 50).2.1 (by rfl),
   (C2_getSamples_spec exampleTable 5 0 61 50).2.2.2.2 exampleParameter
     { bank := 1, instrument := 2, keyRange := (10, 12), velRange := (0, 127) } 11
     (by decide) (by decide)⟩

/-- C9: the bank-0 fallback in getSamples is per (bank, instrument) pair: when
(bank, instrument) is unresolvable — even if bank itself exists and holds
other instruments — the result equals that of the same lookup under bank 0;
and when (bank, instrument) resolves to an instrument map m, the result is
computed from m alone (the fallback is never applied). -/
theorem C9_bank_fallback (t : SampleTable) (bank instrument key velocity : ℕ) :
    ((alookup t.sampleParameters bank).bind (fun m => alookup m instrument) = none →
      t.getSamples bank instrument key velocity = t.getSamples 0 instrument key velocity) ∧
    (∀ m, (alookup t.sampleParameters bank).bind (fun m => alookup m instrument) = some m →
      t.getSamples bank instrument key velocity =
        (((alookup m key).getD []).filter
          (fun s => decide (velocity ≥ s.velRange.1) && decide (velocity ≤ s.velRange.2))).filterMap
          (fun parameter => (alookup t.samples parameter.sampleID).map
            (fun buffer => { toRegisteredParameter := parameter, buffer := buffer }))) := by
  constructor
  · intro hnone
    unfold SampleTable.getSamples
    rw [instrumentParametersAt_of_none t bank instrument hnone]
  · intro m hm
    have hres : t.instrumentParametersAt bank instrument = some m := by
      unfold SampleTable.instrumentParametersAt
      rw [hm]
      rfl
    unfold SampleTable.getSamples
    rw [hres]
    simp only [Option.some_bind]

/-- Witness for C9: bank 3 exists (instrument 1 is registered there) but
(bank 3, instrument 0) is unresolvable, so the bank-0 result is returned. -/
theorem C9_bank_fallback_witness :
    exampleTable2.getSamples 3 0 61 50 = exampleTable2.getSamples 0 0 61 50 :=
  (C9_bank_fallback exampleTable2 3 0 61 50).1 (by rfl)

/-! ## Reverb lemmas and claim C7 -/

theorem reverb_processRun_passthrough :
    ∀ (lIn rIn : List ℚ) (rv : ReverbProcessor), rv.wetLevel = 0 → rv.dryLevel = 1 →
      lIn.length = rIn.length →
      (rv.processRun lIn rIn).2.1 = lIn ∧ (rv.processRun lIn rIn).2.2 = rIn := by
  intro lIn
  induction lIn with
  | nil =>
      intro rIn rv _ _ h
      have : rIn = [] := by
        cases rIn with
        | nil => rfl
        | cons r rs => simp at h
      subst this
      simp [ReverbProcessor.processRun]
  | cons l ls ih =>
      intro rIn rv hw hd h
      cases rIn with
      | nil => simp at h
      | cons r rs =>
          have hlen : ls.length = rs.length := by simpa using h
          obtain ⟨sr, dl, di, dt, fb, g, wet, dry⟩ := rv
          simp only [ReverbProcessor.wetLevel.eq_1] at hw
          simp only [ReverbProcessor.dryLevel.eq_1] at hd
          subst hw
          subst hd
          have hrec := ih rs
            { sampleRate := sr,
              delayLines := (reverbDelayPass ((l + r) * 0.5) dl di dt fb g).2.1,
              delayIndices := (reverbDelayPass ((l + r) * 0.5) dl di dt fb g).2.2,
              delayTimes := dt, feedbacks := fb, gains := g,
              wetLevel := 0, dryLevel := 1 } rfl rfl hlen
          simp only [ReverbProcessor.processRun, List.headD, List.tail]
          constructor
          · simpa [mul_one, mul_zero, add_zero] using hrec.1
          · simpa [mul_one, mul_zero, add_zero] using hrec.2

/-- C7: for the reverb processor after setReverb 0, process writes output
buffers equal to the input buffers (dryLevel is 1 and the wet contribution is
multiplied by wetLevel 0), for every internal delay-line state and every pair
of equal-length input buffers, on both channels and every sample; and after
setReverb 1 the dry level equals 0.3. -/
theorem C7_reverb_zero_identity (rv : ReverbProcessor) (lIn rIn : List ℚ)
    (hlen : lIn.length = rIn.length) :
    ((rv.setReverb 0).processRun lIn rIn).2.1 = lIn ∧
    ((rv.setReverb 0).processRun lIn rIn).2.2 = rIn ∧
    (rv.setReverb 0).dryLevel = 1 ∧
    (rv.setReverb 1).dryLevel = 0.3 := by
  have hw : (rv.setReverb 0).wetLevel = 0 := by
    simp [ReverbProcessor.setReverb]
  have hd : (rv.setReverb 0).dryLevel = 1 := by
    norm_num [ReverbProcessor.setReverb]
  have h := reverb_processRun_passthrough lIn rIn (rv.setReverb 0) hw hd hlen
  refine ⟨h.1, h.2, hd, ?_⟩
  norm_num [ReverbProcessor.setReverb]

/-- Witness for C7 at a concrete reverb state and concrete buffers. -/
theorem C7_reverb_zero_identity_witness :
    (((ReverbProcessor.create 1000).setReverb 0).processRun [1, 2] [3, 4]).2.1 = [1, 2] ∧
    (((ReverbProcessor.create 1000).setReverb 0).processRun [1, 2] [3, 4]).2.2 = [3, 4] ∧
    ((ReverbProcessor.create 1000).setReverb 0).dryLevel = 1 ∧
    ((ReverbProcessor.create 1000).setReverb 1).dryLevel = 0.3 :=
  C7_reverb_zero_identity (ReverbProcessor.create 1000) [1, 2] [3, 4] (by decide)

/-! ## Envelope lemmas and claim C4 -/

theorem forceStop_fields (e : AmplitudeEnvelope) :
    (e.forceStop).phase = .forceStop ∧ (e.forceStop).lastAmplitude = e.lastAmplitude ∧
    (e.forceStop).sampleRate = e.sampleRate := by
  unfold AmplitudeEnvelope.forceStop AmplitudeEnvelope.setPhase
  split
  · next h => exact ⟨h, rfl, rfl⟩
  · exact ⟨rfl, rfl, rfl⟩

theorem calcAmp_forceStop (M : MathOps) (e : AmplitudeEnvelope) (bs : ℕ)
    (h : e.phase = .forceStop) :
    e.calculateAmplitude M bs =
      (if e.lastAmplitude - 1 / (forceStopReleaseTime * e.sampleRate) * bs ≤ 0 then
        (0, e.setPhase .stopped)
       else (e.lastAmplitude - 1 / (forceStopReleaseTime * e.sampleRate) * bs, e)) := by
  unfold AmplitudeEnvelope.calculateAmplitude
  rw [if_neg (by simp [h])]
  simp only [h]

theorem calcAmp_stopped (M : MathOps) (e : AmplitudeEnvelope) (bs : ℕ)
    (h : e.phase = .stopped) :
    e.calculateAmplitude M bs = (0, e) := by
  unfold AmplitudeEnvelope.calculateAmplitude
  rw [if_neg (by simp [h])]
  simp only [h]

theorem getAmplitude_forceStop_step (M : MathOps) (e : AmplitudeEnvelope) (bs : ℕ)
    (h : e.phase = .forceStop) :
    ((e.getAmplitude M bs).1 =
      if e.lastAmplitude - 1 / (forceStopReleaseTime * e.sampleRate) * bs ≤ 0 then 0
      else e.lastAmplitude - 1 / (forceStopReleaseTime * e.sampleRate) * bs) ∧
    ((e.getAmplitude M bs).2.phase =
      if e.lastAmplitude - 1 / (forceStopReleaseTime * e.sampleRate) * bs ≤ 0 then
        EnvelopePhase.stopped
      else EnvelopePhase.forceStop) ∧
    ((e.getAmplitude M bs).2.lastAmplitude = (e.getAmplitude M bs).1) ∧
    ((e.getAmplitude M bs).2.sampleRate = e.sampleRate) := by
  unfold AmplitudeEnvelope.getAmplitude
  rw [calcAmp_forceStop M e bs h]
  have hps : (e.setPhase .stopped).phase = .stopped := by
    unfold AmplitudeEnvelope.setPhase
    rw [if_neg (by rw [h]; intro hcon; exact absurd hcon (by decide))]
  have hsr2 : (e.setPhase .stopped).sampleRate = e.sampleRate := by
    unfold AmplitudeEnvelope.setPhase
    split <;> rfl
  refine ⟨by split <;> rfl, by split <;> first | exact hps | exact h,
    by split <;> rfl, by split <;> first | exact hsr2 | rfl⟩

theorem getAmplitude_stopped_step (M : MathOps) (e : AmplitudeEnvelope) (bs : ℕ)
    (h : e.phase = .stopped) :
    ((e.getAmplitude M bs).1 = 0) ∧
    ((e.getAmplitude M bs).2.phase = .stopped) ∧
    ((e.getAmplitude M bs).2.lastAmplitude = 0) ∧
    ((e.getAmplitude M bs).2.sampleRate = e.sampleRate) := by
  unfold AmplitudeEnvelope.getAmplitude
  rw [calcAmp_stopped M e bs h]
  exact ⟨rfl, h, rfl, rfl⟩

theorem forceStop_invariant (M : MathOps) (e : AmplitudeEnvelope) (bs : ℕ)
    (hbs : 0 < bs) (hsr : 0 < e.sampleRate) :
    ∀ k,
      (envelopeAfter M bs e.forceStop (k + 1)).sampleRate = e.sampleRate ∧
      (((envelopeAfter M bs e.forceStop (k + 1)).phase = .forceStop ∧
          0 < e.lastAmplitude -
            (k + 1) * (1 / (forceStopReleaseTime * e.sampleRate) * bs) ∧
          (envelopeAfter M bs e.forceStop (k + 1)).lastAmplitude =
            e.lastAmplitude - (k + 1) * (1 / (forceStopReleaseTime * e.sampleRate) * bs)) ∨
        ((envelopeAfter M bs e.forceStop (k + 1)).phase = .stopped ∧
          e.lastAmplitude - (k + 1) * (1 / (forceStopReleaseTime * e.sampleRate) * bs) ≤ 0 ∧
          (envelopeAfter M bs e.forceStop (k + 1)).lastAmplitude = 0)) := by
  have hapf : 0 < 1 / (forceStopReleaseTime * e.sampleRate) * (bs : ℚ) := by
    have h1 : (0 : ℚ) < forceStopReleaseTime * e.sampleRate := by
      have : (0 : ℚ) < forceStopReleaseTime := by norm_num [forceStopReleaseTime]
      positivity
    have h2 : (0 : ℚ) < (bs : ℚ) := by exact_mod_cast hbs
    positivity
  intro k
  induction k with
  | zero =>
      obtain ⟨hp0, hl0, hs0⟩ := forceStop_fields e
      have hstep := getAmplitude_forceStop_step M e.forceStop bs hp0
      rw [hl0, hs0] at hstep
      simp only [envelopeAfter]
      refine ⟨hstep.2.2.2, ?_⟩
      by_cases hc : e.lastAmplitude - 1 / (forceStopReleaseTime * e.sampleRate) * bs ≤ 0
      · right
        refine ⟨by rw [hstep.2.1, if_pos hc], by push_cast; linarith, ?_⟩
        rw [hstep.2.2.1, hstep.1, if_pos hc]
      · left
        have hc2 := not_le.mp hc
        refine ⟨by rw [hstep.2.1, if_neg hc], by push_cast; linarith, ?_⟩
        rw [hstep.2.2.1, hstep.1, if_neg hc]
        push_cast
        ring
  | succ k ih =>
      obtain ⟨ihs, ihd⟩ := ih
      have hstepform :
          envelopeAfter M bs e.forceStop (k + 1 + 1) =
            ((envelopeAfter M bs e.forceStop (k + 1)).getAmplitude M bs).2 := rfl
      rcases ihd with ⟨hph, hpos, hla⟩ | ⟨hph, hle, hla⟩
      · have hstep := getAmplitude_forceStop_step M (envelopeAfter M bs e.forceStop (k + 1)) bs hph
        rw [hla, ihs] at hstep
        refine ⟨by rw [hstepform, hstep.2.2.2], ?_⟩
        by_cases hc : e.lastAmplitude - (k + 1) * (1 / (forceStopReleaseTime * e.sampleRate) * bs)
            - 1 / (forceStopReleaseTime * e.sampleRate) * bs ≤ 0
        · right
          have hc2 : e.lastAmplitude -
              ((k : ℚ) + 1 + 1) * (1 / (forceStopReleaseTime * e.sampleRate) * bs) ≤ 0 := by
            push_cast
            push_cast at hc
            linarith
          refine ⟨?_, by push_cast; push_cast at hc2; linarith, ?_⟩
          · rw [hstepform, hstep.2.1]
            simp only [hc, if_true]
          · rw [hstepform, hstep.2.2.1, hstep.1]
            simp only [hc, if_true]
        · left
          have hc2 : 0 < e.lastAmplitude -
              ((k : ℚ) + 1 + 1) * (1 / (forceStopReleaseTime * e.sampleRate) * bs) := by
            push_cast
            push_cast at hc
            linarith
          refine ⟨?_, by push_cast; push_cast at hc2; linarith, ?_⟩
          · rw [hstepform, hstep.2.1]
            simp only [hc, if_false]
          · rw [hstepform, hstep.2.2.1, hstep.1]
            simp only [hc, if_false]
            push_cast
            ring
      · have hstep := getAmplitude_stopped_step M (envelopeAfter M bs e.forceStop (k + 1)) bs hph
        refine ⟨by rw [hstepform, hstep.2.2.2, ihs], Or.inr ⟨?_, ?_, ?_⟩⟩
        · rw [hstepform, hstep.2.1]
        · push_cast
          push_cast at hle
          nlinarith [hapf]
        · rw [hstepform, hstep.2.2.1]

theorem getAmplitude_last_eq_value (M : MathOps) (e : AmplitudeEnvelope) (bs : ℕ) :
    (e.getAmplitude M bs).2.lastAmplitude = (e.getAmplitude M bs).1 := by
  unfold AmplitudeEnvelope.getAmplitude
  rfl

theorem amplitudeAt_eq_last (M : MathOps) (e : AmplitudeEnvelope) (bs k : ℕ) :
    amplitudeAt M bs e k = (envelopeAfter M bs e (k + 1)).lastAmplitude := by
  unfold amplitudeAt
  rw [show envelopeAfter M bs e (k + 1) = ((envelopeAfter M bs e k).getAmplitude M bs).2 from rfl]
  rw [getAmplitude_last_eq_value]

/-- C4: for an amplitude envelope in any phase other than stopped with last
amplitude at most 1: after forceStop, the successive getAmplitude values are
nonincreasing, strictly decreasing while nonzero, equal to exactly 0 within
ceil(forceStopReleaseTime times sampleRate over bufferSize) calls, and the
phase is stopped from then on, regardless of the starting phase and of the
release-time parameter. -/
theorem C4_envelope_forceStop (M : MathOps) (e : AmplitudeEnvelope) (bufferSize : ℕ)
    (hbs : 0 < bufferSize) (hsr : 0 < e.sampleRate)
    (hph : e.phase ≠ .stopped) (hlast : e.lastAmplitude ≤ 1) :
    (∀ k, amplitudeAt M bufferSize e.forceStop (k + 1) ≤
        amplitudeAt M bufferSize e.forceStop k) ∧
    (∀ k, amplitudeAt M bufferSize e.forceStop k ≠ 0 →
      amplitudeAt M bufferSize e.forceStop (k + 1) < amplitudeAt M bufferSize e.forceStop k) ∧
    (∀ k, ⌈forceStopReleaseTime * e.sampleRate / (bufferSize : ℚ)⌉₊ ≤ k + 1 →
      amplitudeAt M bufferSize e.forceStop k = 0) ∧
    (∀ k, ⌈forceStopReleaseTime * e.sampleRate / (bufferSize : ℚ)⌉₊ ≤ k →
      (envelopeAfter M bufferSize e.forceStop k).phase = .stopped) := by
  have hfsr : (0 : ℚ) < forceStopReleaseTime := by norm_num [forceStopReleaseTime]
  have hbsq : (0 : ℚ) < (bufferSize : ℚ) := by exact_mod_cast hbs
  have hden : (0 : ℚ) < forceStopReleaseTime * e.sampleRate := by positivity
  have hapf : 0 < 1 / (forceStopReleaseTime * e.sampleRate) * (bufferSize : ℚ) := by positivity
  have hamp : ∀ k, amplitudeAt M bufferSize e.forceStop k =
      max (e.lastAmplitude -
        (k + 1) * (1 / (forceStopReleaseTime * e.sampleRate) * bufferSize)) 0 := by
    intro k
    rw [amplitudeAt_eq_last]
    rcases (forceStop_invariant M e bufferSize hbs hsr k).2 with ⟨_, hpos, hla⟩ | ⟨_, hle, hla⟩
    · rw [hla]
      rw [max_eq_left (by linarith)]
    · rw [hla]
      rw [max_eq_right (by linarith)]
  have hamp2 : ∀ k : ℕ, amplitudeAt M bufferSize e.forceStop (k + 1) =
      max (e.lastAmplitude -
        ((k : ℚ) + 2) * (1 / (forceStopReleaseTime * e.sampleRate) * bufferSize)) 0 := by
    intro k
    rw [hamp (k + 1)]
    congr 1
    push_cast
    ring
  have hceil : ∀ k : ℕ, ⌈forceStopReleaseTime * e.sampleRate / (bufferSize : ℚ)⌉₊ ≤ k + 1 →
      e.lastAmplitude - (k + 1) * (1 / (forceStopReleaseTime * e.sampleRate) * bufferSize) ≤ 0 := by
    intro k hk
    have h1 : forceStopReleaseTime * e.sampleRate / (bufferSize : ℚ) ≤ ((k : ℚ) + 1) := by
      calc forceStopReleaseTime * e.sampleRate / (bufferSize : ℚ) ≤
          (⌈forceStopReleaseTime * e.sampleRate / (bufferSize : ℚ)⌉₊ : ℚ) := Nat.le_ceil _
        _ ≤ ((k : ℚ) + 1) := by exact_mod_cast hk
    have h2 : (1 : ℚ) ≤ ((k : ℚ) + 1) * (1 / (forceStopReleaseTime * e.sampleRate) * bufferSize) := by
      have hx : forceStopReleaseTime * e.sampleRate / (bufferSize : ℚ) *
          (1 / (forceStopReleaseTime * e.sampleRate) * bufferSize) = 1 := by
        field_simp
      have := mul_le_mul_of_nonneg_right h1 (le_of_lt hapf)
      rw [hx] at this
      exact this
    linarith
  refine ⟨?_, ?_, ?_, ?_⟩
  · intro k
    rw [hamp2 k, hamp k]
    refine max_le_max ?_ le_rfl
    have h12 : ((k : ℚ) + 1) ≤ ((k : ℚ) + 2) := by linarith
    exact sub_le_sub_left (mul_le_mul_of_nonneg_right h12 (le_of_lt hapf)) _
  · intro k hne
    rw [hamp k] at hne
    rw [hamp2 k, hamp k]
    have hpos : 0 < e.lastAmplitude -
        ((k : ℚ) + 1) * (1 / (forceStopReleaseTime * e.sampleRate) * bufferSize) := by
      by_contra hcon
      push_neg at hcon
      exact hne (max_eq_right hcon)
    rw [max_eq_left (le_of_lt hpos)]
    rcases le_or_lt (e.lastAmplitude -
        ((k : ℚ) + 2) * (1 / (forceStopReleaseTime * e.sampleRate) * bufferSize)) 0 with h | h
    · rw [max_eq_right h]
      exact hpos
    · rw [max_eq_left (le_of_lt h)]
      nlinarith [hapf]
  · intro k hk
    rw [hamp k]
    exact max_eq_right (hceil k hk)
  · intro k hk
    have hn1 : 1 ≤ ⌈forceStopReleaseTime * e.sampleRate / (bufferSize : ℚ)⌉₊ := by
      have : (0 : ℚ) < forceStopReleaseTime * e.sampleRate / (bufferSize : ℚ) := by positivity
      exact Nat.one_le_iff_ne_zero.mpr (by
        intro h0
        have := Nat.ceil_eq_zero.mp h0
        linarith)
    obtain ⟨j, rfl⟩ : ∃ j, k = j + 1 := ⟨k - 1, by omega⟩
    have hk2 : ⌈forceStopReleaseTime * e.sampleRate / (bufferSize : ℚ)⌉₊ ≤ j + 1 := hk
    rcases (forceStop_invariant M e bufferSize hbs hsr j).2 with ⟨hphx, hpos, _⟩ | ⟨hphx, _, _⟩
    · exfalso
      have := hceil j hk2
      push_cast at this hpos
      linarith
    · exact hphx

/-- Witness for C4 at a concrete envelope (sustain phase, amplitude 1, sample
rate 10) and buffer size 2: the first call already returns 0 and the phase is
stopped after one call. -/
theorem C4_envelope_forceStop_witness :
    amplitudeAt defaultMathOps 2 exampleEnvelope.forceStop 0 = 0 ∧
    (envelopeAfter defaultMathOps 2 exampleEnvelope.forceStop 1).phase = .stopped := by
  have h := C4_envelope_forceStop defaultMathOps exampleEnvelope 2
    (by decide) (by norm_num [exampleEnvelope]) (by decide) (by norm_num [exampleEnvelope])
  have hn : ⌈forceStopReleaseTime * exampleEnvelope.sampleRate / ((2 : ℕ) : ℚ)⌉₊ = 1 := by
    rw [show forceStopReleaseTime * exampleEnvelope.sampleRate / ((2 : ℕ) : ℚ) = 1 / 2 by
      norm_num [forceStopReleaseTime, exampleEnvelope]]
    rw [Nat.ceil_eq_iff (by norm_num)]
    norm_num
  exact ⟨h.2.2.1 0 (by rw [hn]), h.2.2.2 1 (by rw [hn])⟩

/-! ## Scheduler ordering lemmas and claim C1 -/

theorem insertPosGo_nil (key : ℕ) : insertPosGo [] key 0 0 = 0 := by
  unfold insertPosGo
  simp

theorem insertPosGo_single (a key : ℕ) :
    insertPosGo [a] key 0 1 = if a < key then 1 else 0 := by
  rw [insertPosGo]
  by_cases h : a < key
  · simp [h]
    rw [insertPosGo]
    simp
  · simp [h]
    rw [insertPosGo]
    simp

theorem mergeSort_pair_sortEvents (a b : ScheduledMidiEvent) :
    List.mergeSort [a, b] sortEventsLE = if sortEventsLE a b then [a, b] else [b, a] := by
  simp [List.mergeSort, List.merge]

theorem addEvent_midi_empty (f0 d s : ℕ) (m : MidiEvent) :
    (SynthEventScheduler.addEvent ⟨[], [], [], []⟩ f0
      { body := .midi m d, sequenceNumber := s }).1 =
    ⟨[{ midi := m, delayTime := d, sequenceNumber := s, scheduledFrame := f0 + d }],
      [], [], []⟩ := by
  simp [SynthEventScheduler.addEvent, insertSorted, insertPosGo_nil, List.insertIdx]

theorem addEvent_midi_single (f0 d s : ℕ) (m : MidiEvent) (E : ScheduledMidiEvent) :
    (SynthEventScheduler.addEvent ⟨[E], [], [], []⟩ f0
      { body := .midi m d, sequenceNumber := s }).1 =
    ⟨if E.scheduledFrame < f0 + d then
        [E, { midi := m, delayTime := d, sequenceNumber := s, scheduledFrame := f0 + d }]
      else [{ midi := m, delayTime := d, sequenceNumber := s, scheduledFrame := f0 + d }, E],
      [], [], []⟩ := by
  by_cases h : E.scheduledFrame < f0 + d
  · simp [SynthEventScheduler.addEvent, insertSorted, insertPosGo_single, h, List.insertIdx]
  · simp [SynthEventScheduler.addEvent, insertSorted, insertPosGo_single, h, List.insertIdx]

theorem trace_state_empty : ∀ frames : List ℕ,
    schedulerDispatchTrace ⟨[], [], [], []⟩ frames = [] := by
  intro frames
  induction frames with
  | nil => rfl
  | cons f fs ih =>
      simp only [schedulerDispatchTrace, SynthEventScheduler.processScheduledEvents]
      simpa using ih

theorem trace_state_one (E : ScheduledMidiEvent) :
    ∀ frames : List ℕ,
      schedulerDispatchTrace ⟨[E], [], [], []⟩ frames = [] ∨
      schedulerDispatchTrace ⟨[E], [], [], []⟩ frames = [E] := by
  intro frames
  induction frames with
  | nil => left; rfl
  | cons f fs ih =>
      by_cases hdue : E.scheduledFrame ≤ f
      · right
        simp only [schedulerDispatchTrace, SynthEventScheduler.processScheduledEvents]
        simp [hdue, trace_state_empty fs]
      · simp only [schedulerDispatchTrace, SynthEventScheduler.processScheduledEvents]
        simpa [hdue] using ih

theorem trace_state_two (E1 E2 : ScheduledMidiEvent)
    (hf : E1.scheduledFrame ≤ E2.scheduledFrame)
    (hle : sortEventsLE E1 E2 = true) (hnle : sortEventsLE E2 E1 = false) :
    ∀ (frames : List ℕ) (q : List ScheduledMidiEvent), (q = [E1, E2] ∨ q = [E2, E1]) →
      (schedulerDispatchTrace ⟨q, [], [], []⟩ frames = [] ∨
       schedulerDispatchTrace ⟨q, [], [], []⟩ frames = [E1] ∨
       schedulerDispatchTrace ⟨q, [], [], []⟩ frames = [E1, E2]) := by
  intro frames
  induction frames with
  | nil =>
      intro q _
      left
      rfl
  | cons f fs ih =>
      intro q hq
      rcases hq with rfl | rfl
      · by_cases h2 : E2.scheduledFrame ≤ f
        · have h1 : E1.scheduledFrame ≤ f := le_trans hf h2
          right; right
          simp only [schedulerDispatchTrace, SynthEventScheduler.processScheduledEvents]
          simp [h1, h2, mergeSort_pair_sortEvents, hle, trace_state_empty fs]
        · by_cases h1 : E1.scheduledFrame ≤ f
          · simp only [schedulerDispatchTrace, SynthEventScheduler.processScheduledEvents]
            rcases trace_state_one E2 fs with h | h
            · right; left
              simp [h1, h2, h]
            · right; right
              simp [h1, h2, h]
          · simp only [schedulerDispatchTrace, SynthEventScheduler.processScheduledEvents]
            simpa [h1, h2] using ih [E1, E2] (Or.inl rfl)
      · by_cases h2 : E2.scheduledFrame ≤ f
        · have h1 : E1.scheduledFrame ≤ f := le_trans hf h2
          right; right
          simp only [schedulerDispatchTrace, SynthEventScheduler.processScheduledEvents]
          simp [h1, h2, mergeSort_pair_sortEvents, hnle, trace_state_empty fs]
        · simp only [schedulerDispatchTrace, SynthEventScheduler.processScheduledEvents]
          simpa [h2] using ih [E2, E1] (Or.inr rfl)

/-- C1: two delayable MIDI events submitted at the same current frame f0 with
delays d1 and d2, in either submission order, are dispatched across any
sequence of processScheduledEvents calls (at nondecreasing current frames) so
that, whenever d1 < d2, or the delays tie and the first submission has the
smaller sequence number, the d1/s1 event is dispatched strictly before the
d2/s2 event: every possible dispatch trace is a prefix of the ordered pair. -/
theorem C1_scheduler_ordering (m1 m2 : MidiEvent) (d1 d2 f0 s1 s2 : ℕ)
    (frames : List ℕ) (hmono : List.Chain' (fun a b => a ≤ b) frames)
    (horder : d1 < d2 ∨ (d1 = d2 ∧ s1 < s2)) :
    (schedulerDispatchTrace
        ((SynthEventScheduler.addEvent
          ((SynthEventScheduler.addEvent ⟨[], [], [], []⟩ f0
            { body := .midi m1 d1, sequenceNumber := s1 }).1) f0
          { body := .midi m2 d2, sequenceNumber := s2 }).1) frames = [] ∨
      schedulerDispatchTrace
        ((SynthEventScheduler.addEvent
          ((SynthEventScheduler.addEvent ⟨[], [], [], []⟩ f0
            { body := .midi m1 d1, sequenceNumber := s1 }).1) f0
          { body := .midi m2 d2, sequenceNumber := s2 }).1) frames =
        [{ midi := m1, delayTime := d1, sequenceNumber := s1, scheduledFrame := f0 + d1 }] ∨
      schedulerDispatchTrace
        ((SynthEventScheduler.addEvent
          ((SynthEventScheduler.addEvent ⟨[], [], [], []⟩ f0
            { body := .midi m1 d1, sequenceNumber := s1 }).1) f0
          { body := .midi m2 d2, sequenceNumber := s2 }).1) frames =
        [{ midi := m1, delayTime := d1, sequenceNumber := s1, scheduledFrame := f0 + d1 },
         { midi := m2, delayTime := d2, sequenceNumber := s2, scheduledFrame := f0 + d2 }]) ∧
    (schedulerDispatchTrace
        ((SynthEventScheduler.addEvent
          ((SynthEventScheduler.addEvent ⟨[], [], [], []⟩ f0
            { body := .midi m2 d2, sequenceNumber := s2 }).1) f0
          { body := .midi m1 d1, sequenceNumber := s1 }).1) frames = [] ∨
      schedulerDispatchTrace
        ((SynthEventScheduler.addEvent
          ((SynthEventScheduler.addEvent ⟨[], [], [], []⟩ f0
            { body := .midi m2 d2, sequenceNumber := s2 }).1) f0
          { body := .midi m1 d1, sequenceNumber := s1 }).1) frames =
        [{ midi := m1, delayTime := d1, sequenceNumber := s1, scheduledFrame := f0 + d1 }] ∨
      schedulerDispatchTrace
        ((SynthEventScheduler.addEvent
          ((SynthEventScheduler.addEvent ⟨[], [], [], []⟩ f0
            { body := .midi m2 d2, sequenceNumber := s2 }).1) f0
          { body := .midi m1 d1, sequenceNumber := s1 }).1) frames =
        [{ midi := m1, delayTime := d1, sequenceNumber := s1, scheduledFrame := f0 + d1 },
         { midi := m2, delayTime := d2, sequenceNumber := s2, scheduledFrame := f0 + d2 }]) := by
  have hf : f0 + d1 ≤ f0 + d2 := by omega
  have hle : sortEventsLE
      { midi := m1, delayTime := d1, sequenceNumber := s1, scheduledFrame := f0 + d1 }
      { midi := m2, delayTime := d2, sequenceNumber := s2, scheduledFrame := f0 + d2 } = true := by
    simp only [sortEventsLE, sortEvents]
    rcases horder with h | ⟨h, hs⟩
    · rw [if_pos (by simp; omega)]
      decide
    · rw [if_neg (by simp; omega), if_neg (by simp; omega), if_pos (by simpa using hs)]
      decide
  have hnle : sortEventsLE
      { midi := m2, delayTime := d2, sequenceNumber := s2, scheduledFrame := f0 + d2 }
      { midi := m1, delayTime := d1, sequenceNumber := s1, scheduledFrame := f0 + d1 } = false := by
    simp only [sortEventsLE, sortEvents]
    rcases horder with h | ⟨h, hs⟩
    · rw [if_neg (by simp; omega), if_pos (by simp; omega)]
      decide
    · rw [if_neg (by simp; omega), if_neg (by simp; omega), if_neg (by simp; omega),
        if_pos (by simpa using hs)]
      decide
  constructor
  · rw [addEvent_midi_empty, addEvent_midi_single]
    simp only []
    by_cases hlt : f0 + d1 < f0 + d2
    · rw [if_pos hlt]
      exact trace_state_two _ _ hf hle hnle frames _ (Or.inl rfl)
    · rw [if_neg hlt]
      exact trace_state_two _ _ hf hle hnle frames _ (Or.inr rfl)
  · rw [addEvent_midi_empty, addEvent_midi_single]
    simp only []
    have hnlt : ¬ (f0 + d2 < f0 + d1) := by omega
    rw [if_neg hnlt]
    exact trace_state_two _ _ hf hle hnle frames _ (Or.inl rfl)

/-- Witness for C1: two note events with delays 2 and 5 from frame 0,
processed at frames 0, 3 and 6. -/
theorem C1_scheduler_ordering_witness :
    (schedulerDispatchTrace
        ((SynthEventScheduler.addEvent
          ((SynthEventScheduler.addEvent ⟨[], [], [], []⟩ 0
            { body := .midi { channel := 0, body := .noteOn 60 100 } 2,
              sequenceNumber := 0 }).1) 0
          { body := .midi { channel := 0, body := .noteOff 60 } 5,
            sequenceNumber := 1 }).1) [0, 3, 6] = [] ∨
      schedulerDispatchTrace
        ((SynthEventScheduler.addEvent
          ((SynthEventScheduler.addEvent ⟨[], [], [], []⟩ 0
            { body := .midi { channel := 0, body := .noteOn 60 100 } 2,
              sequenceNumber := 0 }).1) 0
          { body := .midi { channel := 0, body := .noteOff 60 } 5,
            sequenceNumber := 1 }).1) [0, 3, 6] =
        [{ midi := { channel := 0, body := .noteOn 60 100 }, delayTime := 2,
           sequenceNumber := 0, scheduledFrame := 0 + 2 }] ∨
      schedulerDispatchTrace
        ((SynthEventScheduler.addEvent
          ((SynthEventScheduler.addEvent ⟨[], [], [], []⟩ 0
            { body := .midi { channel := 0, body := .noteOn 60 100 } 2,
              sequenceNumber := 0 }).1) 0
          { body := .midi { channel := 0, body := .noteOff 60 } 5,
            sequenceNumber := 1 }).1) [0, 3, 6] =
        [{ midi := { channel := 0, body := .noteOn 60 100 }, delayTime := 2,
           sequenceNumber := 0, scheduledFrame := 0 + 2 },
         { midi := { channel := 0, body := .noteOff 60 }, delayTime := 5,
           sequenceNumber := 1, scheduledFrame := 0 + 5 }]) :=
  (C1_scheduler_ordering { channel := 0, body := .noteOn 60 100 }
    { channel := 0, body := .noteOff 60 } 2 5 0 0 1 [0, 3, 6]
    (by simp) (Or.inl (by decide))).1

/-! ## Voice-stealing lemmas and claims C3 and C10 -/

theorem forceStop_envelope_phase (v : WavetableOscillator) :
    (v.forceStop).envelope.phase = .forceStop := by
  unfold WavetableOscillator.forceStop AmplitudeEnvelope.forceStop AmplitudeEnvelope.setPhase
  split
  · next h => exact h
  · rfl

theorem noteOn_envelope_attack (M : MathOps) (v : WavetableOscillator) (pitch : ℕ)
    (velocity : ℚ) :
    (v.noteOn M pitch velocity).envelope.phase = .attack := by
  unfold WavetableOscillator.noteOn AmplitudeEnvelope.noteOn AmplitudeEnvelope.setPhase
  split
  · next h => exact h
  · rfl

theorem noteOn_sample_eq (M : MathOps) (v : WavetableOscillator) (pitch : ℕ) (velocity : ℚ) :
    (v.noteOn M pitch velocity).sample = v.sample := rfl

theorem sweepVoice_of_class (x : ℕ) (osc : WavetableOscillator)
    (h : osc.sample.exclusiveClass = some x) :
    (sweepVoice x osc).envelope.phase = .forceStop := by
  unfold sweepVoice
  rw [if_pos h]
  exact forceStop_envelope_phase osc

theorem sweepVoice_of_other (x : ℕ) (osc : WavetableOscillator)
    (h : osc.sample.exclusiveClass ≠ some x) :
    sweepVoice x osc = osc := by
  unfold sweepVoice
  rw [if_neg h]

theorem noteOnSweep_lookup (x : ℕ) (m : List (ℕ × List WavetableOscillator)) (k : ℕ) :
    alookup (noteOnSweep x m) k = (alookup m k).map (List.map (sweepVoice x)) := by
  unfold noteOnSweep
  exact alookup_map_values (List.map (sweepVoice x)) m k

theorem noteOnSample_lookup_pitch (M : MathOps) (sr : ℚ) (pitch velocity : ℕ)
    (state : ChannelState) (sample : SampleWithBuffer) :
    alookup (noteOnSample M sr pitch velocity state sample).oscillators pitch =
      some ((match sample.exclusiveClass with
             | some x => ((alookup state.oscillators pitch).getD []).map (sweepVoice x)
             | none => (alookup state.oscillators pitch).getD []) ++
        [(WavetableOscillator.create sample sr).noteOn M pitch ((velocity : ℚ) / 127)]) := by
  simp only [noteOnSample]
  cases hxc : sample.exclusiveClass with
  | none =>
      simp only []
      by_cases hp : alookup state.oscillators pitch = none
      · rw [if_pos hp]
        simp [alookup_aset_self, hp]
      · rw [if_neg hp, alookup_aset_self]
  | some x =>
      simp only []
      by_cases hp : alookup state.oscillators pitch = none
      · rw [if_pos hp]
        simp [alookup_aset_self, noteOnSweep_lookup, hp]
      · rw [if_neg hp]
        rw [alookup_aset_self]
        rw [noteOnSweep_lookup]
        cases hl : alookup state.oscillators pitch with
        | none => exact absurd hl hp
        | some l => simp [hl]

theorem noteOnSample_lookup_ne (M : MathOps) (sr : ℚ) (pitch velocity : ℕ)
    (state : ChannelState) (sample : SampleWithBuffer) (k : ℕ) (hk : k ≠ pitch) :
    alookup (noteOnSample M sr pitch velocity state sample).oscillators k =
      (match sample.exclusiveClass with
       | some x => (alookup state.oscillators k).map (List.map (sweepVoice x))
       | none => alookup state.oscillators k) := by
  simp only [noteOnSample]
  cases hxc : sample.exclusiveClass with
  | none =>
      simp only []
      by_cases hp : alookup state.oscillators pitch = none
      · rw [if_pos hp]
        rw [alookup_aset_ne _ _ _ _ hk, alookup_aset_ne _ _ _ _ hk]
      · rw [if_neg hp]
        rw [alookup_aset_ne _ _ _ _ hk]
  | some x =>
      simp only []
      by_cases hp : alookup state.oscillators pitch = none
      · rw [if_pos hp]
        rw [alookup_aset_ne _ _ _ _ hk, noteOnSweep_lookup, alookup_aset_ne _ _ _ _ hk]
      · rw [if_neg hp]
        rw [alookup_aset_ne _ _ _ _ hk, noteOnSweep_lookup]

theorem getChannelState_of_some (st : SynthProcessorCore) (channel : ℕ) (cs : ChannelState)
    (hch : alookup st.channels channel = some cs) :
    st.getChannelState channel = (cs, st) := by
  unfold SynthProcessorCore.getChannelState
  rw [hch]

theorem getSamples_snd_of_some (st : SynthProcessorCore) (channel pitch velocity : ℕ)
    (cs : ChannelState) (hch : alookup st.channels channel = some cs) :
    (st.getSamples channel pitch velocity).2 = st := by
  unfold SynthProcessorCore.getSamples
  rw [getChannelState_of_some st channel cs hch]

/-- C3: a noteOn on a channel whose single resolved sample declares exclusive
class x force-stops, on every key of that channel, exactly the pre-existing
voices whose sample declares the same exclusive class x (their envelopes enter
the forced-stop phase), and leaves every voice whose exclusive class is
different or undefined untouched; the channel lists are otherwise preserved,
with the new voice appended at the played key after the sweep. -/
theorem C3_exclusive_stealing (M : MathOps) (st : SynthProcessorCore)
    (channel pitch velocity : ℕ) (cs : ChannelState) (s : SampleWithBuffer) (x : ℕ)
    (hch : alookup st.channels channel = some cs)
    (hres : (st.getSamples channel pitch velocity).1 = [s])
    (hx : s.exclusiveClass = some x) :
    ∃ cs2, alookup (st.noteOn M channel pitch velocity).channels channel = some cs2 ∧
      (∀ k, k ≠ pitch → alookup cs2.oscillators k =
        (alookup cs.oscillators k).map (List.map (sweepVoice x))) ∧
      (alookup cs2.oscillators pitch =
        some (((alookup cs.oscillators pitch).getD []).map (sweepVoice x) ++
          [(WavetableOscillator.create s st.sampleRate).noteOn M pitch ((velocity : ℚ) / 127)])) ∧
      (∀ osc : WavetableOscillator, osc.sample.exclusiveClass = some x →
        (sweepVoice x osc).envelope.phase = .forceStop) ∧
      (∀ osc : WavetableOscillator, osc.sample.exclusiveClass ≠ some x →
        sweepVoice x osc = osc) := by
  have hg := getChannelState_of_some st channel cs hch
  have hs2 := getSamples_snd_of_some st channel pitch velocity cs hch
  refine ⟨noteOnSample M st.sampleRate pitch velocity cs s, ?_, ?_, ?_,
    fun osc h => sweepVoice_of_class x osc h, fun osc h => sweepVoice_of_other x osc h⟩
  · simp only [SynthProcessorCore.noteOn, hg, hres, hs2, List.isEmpty_cons, Bool.false_eq_true,
      if_false, List.foldl_cons, List.foldl_nil, SynthProcessorCore.putChannel]
    exact alookup_aset_self _ _ _
  · intro k hk
    rw [noteOnSample_lookup_ne M st.sampleRate pitch velocity cs s k hk, hx]
  · rw [noteOnSample_lookup_pitch M st.sampleRate pitch velocity cs s, hx]

/-- C10: within one noteOn call each new voice is appended only after the
exclusive-class sweep for its own sample has run. With a single matching
sample, the created voice is last in the per-key list and its envelope is in
the attack phase when noteOn returns (it is never force-stopped by its own
call); with two matching samples that share exclusive class x, the sweep run
for the second sample force-stops the voice created for the first, and the
second voice ends in the attack phase. -/
theorem C10_noteOn_self_ordering (M : MathOps) (st : SynthProcessorCore)
    (channel pitch velocity : ℕ) (cs : ChannelState)
    (hch : alookup st.channels channel = some cs) :
    (∀ s : SampleWithBuffer, (st.getSamples channel pitch velocity).1 = [s] →
      ∃ cs2 prior,
        alookup (st.noteOn M channel pitch velocity).channels channel = some cs2 ∧
        alookup cs2.oscillators pitch = some (prior ++
          [(WavetableOscillator.create s st.sampleRate).noteOn M pitch
            ((velocity : ℚ) / 127)]) ∧
        ((WavetableOscillator.create s st.sampleRate).noteOn M pitch
          ((velocity : ℚ) / 127)).envelope.phase = .attack) ∧
    (∀ (s1 s2 : SampleWithBuffer) (x : ℕ),
      (st.getSamples channel pitch velocity).1 = [s1, s2] →
      s1.exclusiveClass = some x → s2.exclusiveClass = some x →
      ∃ cs2 prior,
        alookup (st.noteOn M channel pitch velocity).channels channel = some cs2 ∧
        alookup cs2.oscillators pitch = some (prior ++
          [sweepVoice x ((WavetableOscillator.create s1 st.sampleRate).noteOn M pitch
            ((velocity : ℚ) / 127)),
           (WavetableOscillator.create s2 st.sampleRate).noteOn M pitch
            ((velocity : ℚ) / 127)]) ∧
        (sweepVoice x ((WavetableOscillator.create s1 st.sampleRate).noteOn M pitch
          ((velocity : ℚ) / 127))).envelope.phase = .forceStop ∧
        ((WavetableOscillator.create s2 st.sampleRate).noteOn M pitch
          ((velocity : ℚ) / 127)).envelope.phase = .attack) := by
  have hg := getChannelState_of_some st channel cs hch
  have hs2 := getSamples_snd_of_some st channel pitch velocity cs hch
  constructor
  · intro s hres
    refine ⟨noteOnSample M st.sampleRate pitch velocity cs s,
      (match s.exclusiveClass with
       | some x => ((alookup cs.oscillators pitch).getD []).map (sweepVoice x)
       | none => (alookup cs.oscillators pitch).getD []), ?_, ?_,
      noteOn_envelope_attack M _ pitch _⟩
    · simp only [SynthProcessorCore.noteOn, hg, hres, hs2, List.isEmpty_cons,
        Bool.false_eq_true, if_false, List.foldl_cons, List.foldl_nil,
        SynthProcessorCore.putChannel]
      exact alookup_aset_self _ _ _
    · rw [noteOnSample_lookup_pitch M st.sampleRate pitch velocity cs s]
  · intro s1 s2 x hres hx1 hx2
    have hosc1sample :
        ((WavetableOscillator.create s1 st.sampleRate).noteOn M pitch
          ((velocity : ℚ) / 127)).sample = s1 := rfl
    refine ⟨noteOnSample M st.sampleRate pitch velocity
        (noteOnSample M st.sampleRate pitch velocity cs s1) s2,
      (((alookup cs.oscillators pitch).getD []).map (sweepVoice x)).map (sweepVoice x),
      ?_, ?_, ?_, noteOn_envelope_attack M _ pitch _⟩
    · simp only [SynthProcessorCore.noteOn, hg, hres, hs2, List.isEmpty_cons,
        Bool.false_eq_true, if_false, List.foldl_cons, List.foldl_nil,
        SynthProcessorCore.putChannel]
      exact alookup_aset_self _ _ _
    · rw [noteOnSample_lookup_pitch M st.sampleRate pitch velocity _ s2, hx2]
      rw [noteOnSample_lookup_pitch M st.sampleRate pitch velocity cs s1, hx1]
      simp [List.map_append]
    · rw [sweepVoice_of_class x _ (by rw [hosc1sample]; exact hx1)]

/-- Witness for C3: starting the class-1 sample at key 60 force-stops the
class-1 voice sounding at key 62. -/
theorem C3_exclusive_stealing_witness :
    ∃ cs2, alookup ((exampleSynth.noteOn defaultMathOps 0 60 50)).channels 0 = some cs2 ∧
      alookup cs2.oscillators 62 = some [sweepVoice 1 exampleVoice] ∧
      (sweepVoice 1 exampleVoice).envelope.phase = .forceStop := by
  obtain ⟨cs2, h1, h2, _h3, h4, _h5⟩ :=
    C3_exclusive_stealing defaultMathOps exampleSynth 0 60 50
      { initialChannelState with oscillators := [(62, [exampleVoice])] }
      exampleExclusiveSample 1 rfl rfl rfl
  refine ⟨cs2, h1, ?_, h4 exampleVoice rfl⟩
  rw [h2 62 (by decide)]
  rfl

/-- Witness for C10: a single-sample noteOn on the plain example table leaves
the freshly created voice last in the key list, in the attack phase. -/
theorem C10_noteOn_self_ordering_witness :
    ∃ cs2 prior,
      alookup ((exampleSynth2.noteOn defaultMathOps 0 61 50)).channels 0 = some cs2 ∧
      alookup cs2.oscillators 61 = some (prior ++
        [(WavetableOscillator.create exampleSample exampleSynth2.sampleRate).noteOn
          defaultMathOps 61 (((50 : ℕ) : ℚ) / 127)]) ∧
      ((WavetableOscillator.create exampleSample exampleSynth2.sampleRate).noteOn
        defaultMathOps 61 (((50 : ℕ) : ℚ) / 127)).envelope.phase = .attack :=
  (C10_noteOn_self_ordering defaultMathOps exampleSynth2 0 61 50 initialChannelState rfl).1
    exampleSample rfl

/-! ## Claim C5 -/

/-- C5: in the per-frame loop of WavetableOscillator.process, under the
precondition loopStart + 1 ≤ loopEnd ≤ sampleEnd: when the loop type is
continuous, or sustain with the note-off flag not yet set, and the pointer
advanced by the modulated speed would reach or pass loopEnd, the pointer is
wrapped to a value inside [loopStart, loopEnd) and the voice keeps playing;
once note-off has occurred on a sustain-loop voice no wrapping happens — the
pointer moves to the plain advanced position and the voice stops exactly when
that position reaches the true sample end. -/
theorem C5_loop_rules (s : SampleWithBuffer) (isNoteOffFlag : Bool)
    (modulatedSpeed sampleIndex : ℚ)
    (hloop : s.loopStart + 1 ≤ s.loopEnd) (hend : s.loopEnd ≤ s.sampleEnd) :
    (((s.loopKind = .loopContinuous ∨ (s.loopKind = .loopSustain ∧ isNoteOffFlag = false)) ∧
        sampleIndex + modulatedSpeed ≥ s.loopEnd) →
      (s.loopStart ≤ (oscFrameStep s isNoteOffFlag modulatedSpeed sampleIndex).2.1 ∧
       (oscFrameStep s isNoteOffFlag modulatedSpeed sampleIndex).2.1 < s.loopEnd ∧
       (oscFrameStep s isNoteOffFlag modulatedSpeed sampleIndex).2.2 = true)) ∧
    ((s.loopKind = .loopSustain ∧ isNoteOffFlag = true) →
      ((oscFrameStep s isNoteOffFlag modulatedSpeed sampleIndex).2.1 =
        sampleIndex + modulatedSpeed ∧
       ((oscFrameStep s isNoteOffFlag modulatedSpeed sampleIndex).2.2 = false ↔
        sampleIndex + modulatedSpeed ≥ s.sampleEnd))) := by
  constructor
  · rintro ⟨hkind, hadv⟩
    have hcond : (s.loopKind = .loopContinuous ∨
        (s.loopKind = .loopSustain ∧ ¬ isNoteOffFlag = true)) ∧
        sampleIndex + modulatedSpeed ≥ s.loopEnd := by
      refine ⟨?_, hadv⟩
      rcases hkind with h | ⟨h1, h2⟩
      · exact Or.inl h
      · exact Or.inr ⟨h1, by rw [h2]; decide⟩
    simp only [oscFrameStep]
    rw [if_pos hcond]
    have h0 : (0 : ℚ) ≤ (sampleIndex + modulatedSpeed) -
        (⌊sampleIndex + modulatedSpeed⌋ : ℚ) :=
      sub_nonneg.mpr (Int.floor_le _)
    have h1 : (sampleIndex + modulatedSpeed) - (⌊sampleIndex + modulatedSpeed⌋ : ℚ) < 1 := by
      have := Int.lt_floor_add_one (sampleIndex + modulatedSpeed)
      linarith
    refine ⟨by simpa using h0, by simp only [Option.getD_some]; linarith, ?_⟩
    simp only [Option.getD_some, decide_eq_true_eq]
    linarith
  · rintro ⟨hkind, hnoff⟩
    have hcond : ¬ ((s.loopKind = .loopContinuous ∨
        (s.loopKind = .loopSustain ∧ ¬ isNoteOffFlag = true)) ∧
        sampleIndex + modulatedSpeed ≥ s.loopEnd) := by
      rintro ⟨hk, _⟩
      rcases hk with h | ⟨_, h2⟩
      · rw [hkind] at h
        exact absurd h (by decide)
      · exact h2 hnoff
    simp only [oscFrameStep]
    rw [if_neg hcond]
    refine ⟨rfl, ?_⟩
    simp only [Option.getD_none, decide_eq_false_iff_not, not_lt, ge_iff_le]

/-- Witness for C5 at a concrete continuous-loop sample: pointer 5/2 advanced
by speed 1 passes loopEnd 3 and wraps to 3/2, inside [1, 3), still playing. -/
theorem C5_loop_rules_witness :
    exampleLoopSample.loopStart ≤ (oscFrameStep exampleLoopSample false 1 (5 / 2)).2.1 ∧
    (oscFrameStep exampleLoopSample false 1 (5 / 2)).2.1 < exampleLoopSample.loopEnd ∧
    (oscFrameStep exampleLoopSample false 1 (5 / 2)).2.2 = true :=
  (C5_loop_rules exampleLoopSample false 1 (5 / 2)
    (by norm_num [exampleLoopSample, exampleParameter])
    (by norm_num [exampleLoopSample, exampleParameter])).1
    ⟨Or.inl rfl, by norm_num [exampleLoopSample, exampleParameter]⟩

/-! ## Claim C6 -/

/-- C6: removeScheduledEvents removes, from the pending queue and from the
popped-but-undispatched batch, exactly the generic events whose midi payload
carries the given channel; events of every other channel remain in order (the
filtered queues are sublists of the originals), and both reverb queues are
untouched. -/
theorem C6_removeScheduledEvents (s : SynthEventScheduler) (channel : ℕ) :
    (∀ e, e ∈ (s.removeScheduledEvents channel).scheduledEvents ↔
        e ∈ s.scheduledEvents ∧ e.midi.channel ≠ channel) ∧
    (∀ e, e ∈ (s.removeScheduledEvents channel).currentEvents ↔
        e ∈ s.currentEvents ∧ e.midi.channel ≠ channel) ∧
    (s.removeScheduledEvents channel).scheduledEvents.Sublist s.scheduledEvents ∧
    (s.removeScheduledEvents channel).currentEvents.Sublist s.currentEvents ∧
    (s.removeScheduledEvents channel).scheduledReverbEvents = s.scheduledReverbEvents ∧
    (s.removeScheduledEvents channel).currentReverbEvents = s.currentReverbEvents := by
  refine ⟨?_, ?_, ?_, ?_, rfl, rfl⟩
  · intro e
    simp [SynthEventScheduler.removeScheduledEvents, List.mem_filter]
  · intro e
    simp [SynthEventScheduler.removeScheduledEvents, List.mem_filter]
  · exact List.filter_sublist _
  · exact List.filter_sublist _

/-! ## Render driver lemmas and claim C8 -/

theorem renderAudioLoop_error_msg (M : MathOps) (cancel : ℕ → Bool)
    (iterCount bufSize : ℕ) :
    ∀ (remaining i currentFrame : ℕ) (synth : SynthProcessorCore) (ld rd : List ℚ)
      (msg : String),
      renderAudioLoop M cancel iterCount bufSize remaining i currentFrame synth ld rd =
        .error msg → msg = "renderAudio cancelled" := by
  intro remaining
  induction remaining with
  | zero =>
      intro i cf synth ld rd msg h
      simp [renderAudioLoop] at h
  | succ r ih =>
      intro i cf synth ld rd msg h
      simp only [renderAudioLoop] at h
      split_ifs at h
      all_goals first
        | exact ih _ _ _ _ _ _ h
        | exact h.symm
        | exact Except.noConfusion h
        | (injection h with h3; exact h3.symm)

theorem renderAudioLoop_ok_of_no_cancel (M : MathOps) (cancel : ℕ → Bool)
    (hC : ∀ i, cancel i = false) (iterCount bufSize : ℕ) :
    ∀ (remaining i currentFrame : ℕ) (synth : SynthProcessorCore) (ld rd : List ℚ),
      ∃ out, renderAudioLoop M cancel iterCount bufSize remaining i currentFrame synth ld rd =
        .ok out := by
  intro remaining
  induction remaining with
  | zero =>
      intro i cf synth ld rd
      exact ⟨_, rfl⟩
  | succ r ih =>
      intro i cf synth ld rd
      simp only [renderAudioLoop]
      split_ifs with h1 h2
      · exact ⟨_, rfl⟩
      · rw [hC i] at h2
        exact absurd h2.2 (by decide)
      · exact ih _ _ _ _ _

theorem renderAudioLoop_first_cancel (M : MathOps) (cancel : ℕ → Bool)
    (hC : cancel 0 = true) (iterCount bufSize r currentFrame : ℕ)
    (synth : SynthProcessorCore) (ld rd : List ℚ) :
    renderAudioLoop M cancel iterCount bufSize (r + 1) 0 currentFrame synth ld rd =
      .error "renderAudio cancelled" := by
  simp only [renderAudioLoop]
  rw [if_neg (by simp), if_pos ⟨by decide, hC⟩]

/-- C8: for the offline render driver, if the cancel predicate reports true
whenever polled, renderAudio terminates with the documented cancellation
failure (the error carrying the message renderAudio cancelled) and produces no
output; if the predicate never reports true, renderAudio never raises for any
event lists; and any failure renderAudio ever surfaces is exactly the
documented cancellation failure. -/
theorem C8_renderAudio_cancellation (M : MathOps) (samples events : List SynthEventBody)
    (options : RenderAudioOptions)
    (hsr : 0 < options.sampleRate) (hbs : 0 < options.bufferSize) :
    ((∀ i, options.cancel i = true) →
      renderAudio M samples events options = .error "renderAudio cancelled") ∧
    ((∀ i, options.cancel i = false) →
      ∃ out, renderAudio M samples events options = .ok out) ∧
    (∀ msg, renderAudio M samples events options = .error msg →
      msg = "renderAudio cancelled") := by
  have hpos : 0 <
      ⌈((silentTimeoutSec * options.sampleRate : ℕ) : ℚ) / (options.bufferSize : ℚ)⌉₊ := by
    apply Nat.ceil_pos.mpr
    apply div_pos
    · have : 0 < silentTimeoutSec * options.sampleRate := by
        unfold silentTimeoutSec
        omega
      exact_mod_cast this
    · exact_mod_cast hbs
  obtain ⟨r, hr⟩ : ∃ r,
      ⌈((getSongLength events : ℕ) : ℚ) / ((options.bufferSize : ℕ) : ℚ)⌉₊ +
        ⌈((silentTimeoutSec * options.sampleRate : ℕ) : ℚ) / ((options.bufferSize : ℕ) : ℚ)⌉₊ =
        r + 1 :=
    ⟨⌈((getSongLength events : ℕ) : ℚ) / ((options.bufferSize : ℕ) : ℚ)⌉₊ +
      ⌈((silentTimeoutSec * options.sampleRate : ℕ) : ℚ) / ((options.bufferSize : ℕ) : ℚ)⌉₊ - 1,
      by omega⟩
  refine ⟨?_, ?_, ?_⟩
  · intro hC
    simp only [renderAudio]
    rw [hr, renderAudioLoop_first_cancel M options.cancel (hC 0)]
  · intro hC
    simp only [renderAudio]
    obtain ⟨out, hout⟩ := renderAudioLoop_ok_of_no_cancel M options.cancel hC
      ⌈((getSongLength events : ℕ) : ℚ) / ((options.bufferSize : ℕ) : ℚ)⌉₊
      options.bufferSize
      (⌈((getSongLength events : ℕ) : ℚ) / ((options.bufferSize : ℕ) : ℚ)⌉₊ +
        ⌈((silentTimeoutSec * options.sampleRate : ℕ) : ℚ) / ((options.bufferSize : ℕ) : ℚ)⌉₊)
      0 0 _ _ _
    rw [hout]
    exact ⟨_, rfl⟩
  · intro msg h
    simp only [renderAudio] at h
    set L := renderAudioLoop M options.cancel
      ⌈((getSongLength events : ℕ) : ℚ) / ((options.bufferSize : ℕ) : ℚ)⌉₊
      options.bufferSize
      (⌈((getSongLength events : ℕ) : ℚ) / ((options.bufferSize : ℕ) : ℚ)⌉₊ +
        ⌈((silentTimeoutSec * options.sampleRate : ℕ) : ℚ) / ((options.bufferSize : ℕ) : ℚ)⌉₊)
      0 0
      ((List.map (fun p => SynthEvent.mk p.2 p.1) samples.enum ++
        List.map (fun p => SynthEvent.mk p.2 (samples.length + p.1)) events.enum).foldl
        (fun s e => s.addEvent 0 e) (SynthProcessorCore.create (options.sampleRate : ℚ)))
      (List.replicate ((⌈((getSongLength events : ℕ) : ℚ) / ((options.bufferSize : ℕ) : ℚ)⌉₊ +
        ⌈((silentTimeoutSec * options.sampleRate : ℕ) : ℚ) /
          ((options.bufferSize : ℕ) : ℚ)⌉₊) * options.bufferSize) (0 : ℚ))
      (List.replicate ((⌈((getSongLength events : ℕ) : ℚ) / ((options.bufferSize : ℕ) : ℚ)⌉₊ +
        ⌈((silentTimeoutSec * options.sampleRate : ℕ) : ℚ) /
          ((options.bufferSize : ℕ) : ℚ)⌉₊) * options.bufferSize) (0 : ℚ)) with hL
    clear_value L
    cases hcase : L with
    | error m =>
        rw [hcase] at h
        simp only [Except.error.injEq] at h
        subst h
        exact renderAudioLoop_error_msg M options.cancel _ _ _ _ _ _ _ _ _ (hL ▸ hcase)
    | ok res =>
        rw [hcase] at h
        simp at h

/-- Witness for C8: a constant-true cancel predicate aborts a tiny render with
the documented failure, and a constant-false one completes it. -/
theorem C8_renderAudio_cancellation_witness :
    renderAudio defaultMathOps [] []
      { sampleRate := 1, bufferSize := 5, cancel := fun _ => true } =
      .error "renderAudio cancelled" ∧
    ∃ out, renderAudio defaultMathOps [] []
      { sampleRate := 1, bufferSize := 5, cancel := fun _ => false } = .ok out :=
  ⟨(C8_renderAudio_cancellation defaultMathOps [] []
      { sampleRate := 1, bufferSize := 5, cancel := fun _ => true }
      (by decide) (by decide)).1 (fun _ => rfl),
   (C8_renderAudio_cancellation defaultMathOps [] []
      { sampleRate := 1, bufferSize := 5, cancel := fun _ => false }
      (by decide) (by decide)).2.1 (fun _ => rfl)⟩

end Wavelet
